import Mathlib

/-!
Verification development for the CodeCad script-engine subsystem.

We give a shallow embedding of the CAD command library
(`src/renderer/js/cad/engines/base-engine.js`), the two language engines
(`javascript-engine.js`, `openscad-engine.js`) and the engine manager
(`script-engine-manager.js`), and prove or refute the testable properties
stated in the specification.

Modelling conventions:

* JavaScript runtime values are modelled by `JVal α`, where `α` is the
  number type (a `Field` with decidable equality; we instantiate `ℚ` for
  executable witnesses and `ℝ` where the specification mentions `π`).
  `JVal.undefined` models `undefined`; property access on a missing key yields
  `undefined`, and JavaScript truthiness is `truthy`.
* CAD objects are JavaScript object literals, modelled as association
  lists `CADObj α := List (String × JVal α)` in insertion order; fields
  not meaningful for a kind are genuinely absent (not null-filled), as in
  the source.
* The JavaScript heap is a `Store α := List (CADObj α)`; an object
  reference is `JVal.objRef h` with `h` an index into the store.  Each
  `execute` call evaluates in a fresh segment of the heap (scripts contain
  no handle literals, so objects from earlier calls are unreachable and
  never mutated again); at the call boundary the segment is appended to
  the persistent heap enclosing the engine instance and the handles in the
  returned data are shifted accordingly.
* Numeric operations on non-numbers (which would produce `NaN` in
  JavaScript) are modelled as `undefined`; no claim exercises them.
* Both sandboxes expose the host `Math` object (`Math: Math`), hence
  `Math.random()`.  We model the host PRNG as a stream `ℕ → α` carried in
  the engine state: each `Math.random()` call returns the head of the
  stream and advances it, and the stream persists across `execute` calls
  (the host generator is not reseeded between calls), so two consecutive
  runs of a script that calls `Math.random()` read different values.
-/

namespace CodeCad

/-- `PiConst α` supplies the value of the JavaScript constant `Math.PI` in the
number type `α`.  At `ℝ` it is `Real.pi`; at `ℚ` (used for executable
witnesses) it is the exact rational value of the IEEE-754 double `Math.PI`. -/
class PiConst (α : Type) where
  piVal : α

noncomputable instance : PiConst ℝ := ⟨Real.pi⟩

instance : PiConst ℚ := ⟨(884279719003555 : ℚ) / 281474976710656⟩

/-- JavaScript runtime values, over a number type `α`. -/
inductive JVal (α : Type) where
  | num (x : α)
  | str (s : String)
  | bool (b : Bool)
  | arr (elems : List (JVal α))
  | objRef (h : Nat)
  | undefined
deriving Repr

/-- CAD object: a JavaScript object literal, an association list of fields in
insertion order. -/
abbrev CADObj (α : Type) : Type := List (String × JVal α)

/-- JavaScript heap of CAD objects; `JVal.objRef h` indexes into it. -/
abbrev Store (α : Type) : Type := List (CADObj α)

variable {α : Type} [Field α] [DecidableEq α] [PiConst α]

/-- JavaScript truthiness of a value (`!v` in the source is `¬ truthy v`).
The number `0`, the empty string, `false` and `undefined` are falsy;
arrays and object references are always truthy. -/
def truthy : JVal α → Bool
  | .num x => decide (x ≠ 0)
  | .str s => decide (s ≠ "")
  | .bool b => b
  | .arr _ => true
  | .objRef _ => true
  | .undefined => false

/-- JavaScript `a || b`. -/
def jsOr (a b : JVal α) : JVal α := if truthy a then a else b

/-- JavaScript `a + b` on numbers; non-numeric operands (which would give
`NaN` or string concatenation, never exercised by the engines) are modelled
as `undefined`. -/
def jsAdd : JVal α → JVal α → JVal α
  | .num a, .num b => .num (a + b)
  | _, _ => .undefined

/-- JavaScript `a * b` on numbers; non-numeric operands give `undefined`. -/
def jsMul : JVal α → JVal α → JVal α
  | .num a, .num b => .num (a * b)
  | _, _ => .undefined

/-- JavaScript array indexing `v[i]`: out-of-range or non-array access
yields `undefined`. -/
def getIdx : JVal α → Nat → JVal α
  | .arr xs, i => xs.getD i .undefined
  | _, _ => .undefined

/-- Assignment `xs[i] = v` on a JavaScript array: in range it replaces, at
the end it appends (growing the array — this is how `translate` turns a
2-element position into a 3-element one), past the end it pads with
`undefined`. -/
def arrSet (xs : List (JVal α)) (i : Nat) (v : JVal α) : List (JVal α) :=
  if i < xs.length then xs.set i v
  else xs ++ List.replicate (i - xs.length) .undefined ++ [v]

/-- Assignment `u[i] = v` on a JavaScript value: a no-op unless `u` is an
array (non-strict-mode property assignment on primitives is silent). -/
def setIdx (u : JVal α) (i : Nat) (v : JVal α) : JVal α :=
  match u with
  | .arr xs => .arr (arrSet xs i v)
  | _ => u

/-- Property read `o.k`: the first binding of `k`, or `undefined`. -/
def objGet (o : CADObj α) (k : String) : JVal α :=
  match o.find? (fun p => p.1 = k) with
  | some p => p.2
  | none => .undefined

/-- Property write `o.k = v`: replaces the binding in place, or appends a new
one (JavaScript keeps insertion order). -/
def objSet (o : CADObj α) (k : String) (v : JVal α) : CADObj α :=
  match o with
  | [] => [(k, v)]
  | (k₀, v₀) :: rest =>
    if k₀ = k then (k, v) :: rest else (k₀, v₀) :: objSet rest k v

/-- Default-parameter semantics: a JavaScript default kicks in exactly when
the argument is `undefined`. -/
def defArg (v : JVal α) (d : JVal α) : JVal α :=
  match v with
  | .undefined => d
  | _ => v

/-- Argument `i` of a spread-invoked call (`(...args) => ...`): missing
arguments are `undefined`. -/
def argAt (args : List (JVal α)) (i : Nat) : JVal α :=
  args.getD i .undefined

/-- Modelled from the spec: `DEFAULT_GEOMETRY_COLORS` lives in
`src/renderer/js/constants/geometry-colors.js`, which is not part of the
provided sources; the spec only requires distinct default presentation
colors for 3D and for 2D kinds, so we model the two referenced constants as
distinct opaque strings. -/
def DEFAULT_GEOMETRY_COLORS_CUBE : String := "DEFAULT_GEOMETRY_COLORS.CUBE"

/-- Modelled from the spec: the 2D default color constant, distinct from the
3D one (see `DEFAULT_GEOMETRY_COLORS_CUBE`). -/
def DEFAULT_GEOMETRY_COLORS_RECTANGLE : String := "DEFAULT_GEOMETRY_COLORS.RECTANGLE"

/-- `BaseEngine.createCube(size = [1, 1, 1])`: the second and later arguments
of a `cube(...)` call are not declared by `createCube` and are ignored. -/
def createCube (args : List (JVal α)) : CADObj α :=
  let size := defArg (argAt args 0) (.arr [.num 1, .num 1, .num 1])
  let size := match size with
    | .arr _ => size
    | _ => .arr [size, size, size]
  [("type", .str "cube"),
   ("size", size),
   ("position", .arr [.num 0, .num 0, .num 0]),
   ("rotation", .arr [.num 0, .num 0, .num 0]),
   ("color", .str DEFAULT_GEOMETRY_COLORS_CUBE),
   ("transparent", .bool false),
   ("opacity", .num 1)]

/-- `BaseEngine.createSphere(radius = 1, segments = 32)`. -/
def createSphere (args : List (JVal α)) : CADObj α :=
  let radius := defArg (argAt args 0) (.num 1)
  let segments := defArg (argAt args 1) (.num 32)
  [("type", .str "sphere"),
   ("radius", radius),
   ("segments", segments),
   ("position", .arr [.num 0, .num 0, .num 0]),
   ("rotation", .arr [.num 0, .num 0, .num 0]),
   ("color", .str DEFAULT_GEOMETRY_COLORS_CUBE),
   ("transparent", .bool false),
   ("opacity", .num 1)]

/-- `BaseEngine.createCylinder(radius = 1, height = 2, segments = 32)`. -/
def createCylinder (args : List (JVal α)) : CADObj α :=
  let radius := defArg (argAt args 0) (.num 1)
  let height := defArg (argAt args 1) (.num 2)
  let segments := defArg (argAt args 2) (.num 32)
  [("type", .str "cylinder"),
   ("radius", radius),
   ("height", height),
   ("segments", segments),
   ("position", .arr [.num 0, .num 0, .num 0]),
   ("rotation", .arr [.num 0, .num 0, .num 0]),
   ("color", .str DEFAULT_GEOMETRY_COLORS_CUBE),
   ("transparent", .bool false),
   ("opacity", .num 1)]

/-- `BaseEngine.createRectangle(width = 1, height = 1)`: note the 2D default
transform state, `position = [0, 0]` and the scalar `rotation = 0`. -/
def createRectangle (args : List (JVal α)) : CADObj α :=
  let width := defArg (argAt args 0) (.num 1)
  let height := defArg (argAt args 1) (.num 1)
  [("type", .str "2d_rectangle"),
   ("width", width),
   ("height", height),
   ("position", .arr [.num 0, .num 0]),
   ("rotation", .num 0),
   ("color", .str DEFAULT_GEOMETRY_COLORS_RECTANGLE),
   ("transparent", .bool false),
   ("opacity", .num 1)]

/-- `BaseEngine.createCircle(radius = 1, segments = 32)`. -/
def createCircle (args : List (JVal α)) : CADObj α :=
  let radius := defArg (argAt args 0) (.num 1)
  let segments := defArg (argAt args 1) (.num 32)
  [("type", .str "2d_circle"),
   ("radius", radius),
   ("segments", segments),
   ("position", .arr [.num 0, .num 0]),
   ("rotation", .num 0),
   ("color", .str DEFAULT_GEOMETRY_COLORS_RECTANGLE),
   ("transparent", .bool false),
   ("opacity", .num 1)]

/-- `BaseEngine.createPolygon(points = [[0, 0], [1, 0], [0.5, 1]])`. -/
def createPolygon (args : List (JVal α)) : CADObj α :=
  let points := defArg (argAt args 0)
    (.arr [.arr [.num 0, .num 0], .arr [.num 1, .num 0],
           .arr [.num (1 / 2), .num 1]])
  [("type", .str "2d_polygon"),
   ("points", points),
   ("position", .arr [.num 0, .num 0]),
   ("rotation", .num 0),
   ("color", .str DEFAULT_GEOMETRY_COLORS_RECTANGLE),
   ("transparent", .bool false),
   ("opacity", .num 1)]

/-- `BaseEngine.createArc(radius = 1, startAngle = 0, endAngle = Math.PI,
segments = 32)`. -/
def createArc (args : List (JVal α)) : CADObj α :=
  let radius := defArg (argAt args 0) (.num 1)
  let startAngle := defArg (argAt args 1) (.num 0)
  let endAngle := defArg (argAt args 2) (.num (PiConst.piVal : α))
  let segments := defArg (argAt args 3) (.num 32)
  [("type", .str "2d_arc"),
   ("radius", radius),
   ("startAngle", startAngle),
   ("endAngle", endAngle),
   ("segments", segments),
   ("position", .arr [.num 0, .num 0]),
   ("rotation", .num 0),
   ("color", .str DEFAULT_GEOMETRY_COLORS_RECTANGLE),
   ("transparent", .bool false),
   ("opacity", .num 1)]

/-- `BaseEngine.createLine(startPoint = [0, 0], endPoint = [1, 0])`. -/
def createLine (args : List (JVal α)) : CADObj α :=
  let startPoint := defArg (argAt args 0) (.arr [.num 0, .num 0])
  let endPoint := defArg (argAt args 1) (.arr [.num 1, .num 0])
  [("type", .str "2d_line"),
   ("startPoint", startPoint),
   ("endPoint", endPoint),
   ("position", .arr [.num 0, .num 0]),
   ("rotation", .num 0),
   ("color", .str DEFAULT_GEOMETRY_COLORS_RECTANGLE),
   ("transparent", .bool false),
   ("opacity", .num 1)]

/-- `BaseEngine.linearExtrude(shape, height = 1, twist = 0, slices = 1,
center = false)`: the 2D `shape` value (an object reference) is retained as
a nested descriptor. -/
def linearExtrudeObj (shape : JVal α) (args : List (JVal α)) : CADObj α :=
  let height := defArg (argAt args 0) (.num 1)
  let twist := defArg (argAt args 1) (.num 0)
  let slices := defArg (argAt args 2) (.num 1)
  let center := defArg (argAt args 3) (.bool false)
  [("type", .str "extruded"),
   ("shape", shape),
   ("height", height),
   ("twist", twist),
   ("slices", slices),
   ("center", center),
   ("color", .str DEFAULT_GEOMETRY_COLORS_CUBE),
   ("transparent", .bool false),
   ("opacity", .num 1)]

/-- `BaseEngine.rotateExtrude(shape, angle = 2 * Math.PI, segments = 32)`. -/
def rotateExtrudeObj (shape : JVal α) (args : List (JVal α)) : CADObj α :=
  let angle := defArg (argAt args 0) (.num (2 * (PiConst.piVal : α)))
  let segments := defArg (argAt args 1) (.num 32)
  [("type", .str "rotated_extruded"),
   ("shape", shape),
   ("angle", angle),
   ("segments", segments),
   ("color", .str DEFAULT_GEOMETRY_COLORS_CUBE),
   ("transparent", .bool false),
   ("opacity", .num 1)]

/-- `BaseEngine.offset(shape, distance = 0.1, joinType = round, miterLimit
= 1)`: a structural 2D-operation node (a placeholder, no geometry math). -/
def offsetObj (shape : JVal α) (args : List (JVal α)) : CADObj α :=
  let distance := defArg (argAt args 0) (.num (1 / 10))
  let joinType := defArg (argAt args 1) (.str "round")
  let miterLimit := defArg (argAt args 2) (.num 1)
  [("type", .str "2d_offset"),
   ("shape", shape),
   ("distance", distance),
   ("joinType", joinType),
   ("miterLimit", miterLimit),
   ("color", .str DEFAULT_GEOMETRY_COLORS_RECTANGLE),
   ("transparent", .bool false),
   ("opacity", .num 1)]

/-- `BaseEngine.fillet(shape, radius = 0.1)`. -/
def filletObj (shape : JVal α) (args : List (JVal α)) : CADObj α :=
  let radius := defArg (argAt args 0) (.num (1 / 10))
  [("type", .str "2d_fillet"),
   ("shape", shape),
   ("radius", radius),
   ("color", .str DEFAULT_GEOMETRY_COLORS_RECTANGLE),
   ("transparent", .bool false),
   ("opacity", .num 1)]

/-- `BaseEngine.chamfer(shape, distance = 0.1)`. -/
def chamferObj (shape : JVal α) (args : List (JVal α)) : CADObj α :=
  let distance := defArg (argAt args 0) (.num (1 / 10))
  [("type", .str "2d_chamfer"),
   ("shape", shape),
   ("distance", distance),
   ("color", .str DEFAULT_GEOMETRY_COLORS_RECTANGLE),
   ("transparent", .bool false),
   ("opacity", .num 1)]

/-- `BaseEngine.union(objects)`: wraps the argument (normally an array of
object references) as a boolean node; the boolean operation itself is a
placeholder and is not evaluated. -/
def unionObj (objects : JVal α) : CADObj α :=
  [("type", .str "union"),
   ("objects", objects),
   ("color", .str DEFAULT_GEOMETRY_COLORS_CUBE),
   ("transparent", .bool false),
   ("opacity", .num 1)]

/-- `BaseEngine.difference(objects)`. -/
def differenceObj (objects : JVal α) : CADObj α :=
  [("type", .str "difference"),
   ("objects", objects),
   ("color", .str DEFAULT_GEOMETRY_COLORS_CUBE),
   ("transparent", .bool false),
   ("opacity", .num 1)]

/-- `BaseEngine.intersection(objects)`. -/
def intersectionObj (objects : JVal α) : CADObj α :=
  [("type", .str "intersection"),
   ("objects", objects),
   ("color", .str DEFAULT_GEOMETRY_COLORS_CUBE),
   ("transparent", .bool false),
   ("opacity", .num 1)]

/-- `BaseEngine.translate(object, vector)`, field-level part (the `!object`
guard and the store update are handled by the evaluator).  Initializes a
missing/falsy `position` to `[0, 0, 0]`, then performs the three sequential
indexed writes `object.position[i] = (object.position[i] || 0) +
(vector[i] || 0)`; writing index 2 of a 2-element array grows it. -/
def translateObj (o : CADObj α) (vector : JVal α) : CADObj α :=
  let o := if truthy (objGet o "position") then o
           else objSet o "position" (.arr [.num 0, .num 0, .num 0])
  let o := objSet o "position" (setIdx (objGet o "position") 0
    (jsAdd (jsOr (getIdx (objGet o "position") 0) (.num 0))
           (jsOr (getIdx vector 0) (.num 0))))
  let o := objSet o "position" (setIdx (objGet o "position") 1
    (jsAdd (jsOr (getIdx (objGet o "position") 1) (.num 0))
           (jsOr (getIdx vector 1) (.num 0))))
  objSet o "position" (setIdx (objGet o "position") 2
    (jsAdd (jsOr (getIdx (objGet o "position") 2) (.num 0))
           (jsOr (getIdx vector 2) (.num 0))))

/-- `BaseEngine.rotate(object, angles)`, field-level part.  Note that a
freshly created 2D object carries the scalar `rotation = 0`, which is falsy,
so the initialization replaces the scalar with the array `[0, 0, 0]`. -/
def rotateObj (o : CADObj α) (angles : JVal α) : CADObj α :=
  let o := if truthy (objGet o "rotation") then o
           else objSet o "rotation" (.arr [.num 0, .num 0, .num 0])
  let o := objSet o "rotation" (setIdx (objGet o "rotation") 0
    (jsAdd (jsOr (getIdx (objGet o "rotation") 0) (.num 0))
           (jsOr (getIdx angles 0) (.num 0))))
  let o := objSet o "rotation" (setIdx (objGet o "rotation") 1
    (jsAdd (jsOr (getIdx (objGet o "rotation") 1) (.num 0))
           (jsOr (getIdx angles 1) (.num 0))))
  objSet o "rotation" (setIdx (objGet o "rotation") 2
    (jsAdd (jsOr (getIdx (objGet o "rotation") 2) (.num 0))
           (jsOr (getIdx angles 2) (.num 0))))

/-- `BaseEngine.scale(object, factors)`, field-level part.  No constructor
initializes a `scale` field, so the `[1, 1, 1]` initialization always fires
on a fresh object. -/
def scaleObj (o : CADObj α) (factors : JVal α) : CADObj α :=
  let o := if truthy (objGet o "scale") then o
           else objSet o "scale" (.arr [.num 1, .num 1, .num 1])
  let o := objSet o "scale" (setIdx (objGet o "scale") 0
    (jsMul (jsOr (getIdx (objGet o "scale") 0) (.num 1))
           (jsOr (getIdx factors 0) (.num 1))))
  let o := objSet o "scale" (setIdx (objGet o "scale") 1
    (jsMul (jsOr (getIdx (objGet o "scale") 1) (.num 1))
           (jsOr (getIdx factors 1) (.num 1))))
  objSet o "scale" (setIdx (objGet o "scale") 2
    (jsMul (jsOr (getIdx (objGet o "scale") 2) (.num 1))
           (jsOr (getIdx factors 2) (.num 1))))

/-- Test `obj.type === union || obj.type === difference || obj.type ===
intersection` from `BaseEngine.flattenObjects`. -/
def isBoolType : JVal α → Bool
  | .str s => s == "union" || s == "difference" || s == "intersection"
  | _ => false

/-- Elements of a JavaScript value used as an iteration target; non-arrays
yield no elements (well-formed boolean nodes always carry an array). -/
def asElems : JVal α → List (JVal α)
  | .arr l => l
  | _ => []

/-- Contribution of one element of the list walked by
`BaseEngine.flattenObjects`: a boolean-typed object reference contributes
the recursive flattening of its `objects` field, anything else contributes
itself.  The source recursion is bounded by the acyclicity of the object
graph; we carry explicit fuel (`f`), consumed only when expanding a boolean
node, which is irrelevant as soon as it exceeds the allocation-ordered
depth of the store (proved below). -/
def refFlattenOne : ℕ → Store α → JVal α → List (JVal α)
  | f, σ, v =>
    match v with
    | .objRef h =>
      if isBoolType (objGet (σ.getD h []) "type") then
        match f with
        | 0 => []
        | f' + 1 =>
          (asElems (objGet (σ.getD h []) "objects")).flatMap (refFlattenOne f' σ)
      else [v]
    | _ => [v]

/-- `BaseEngine.flattenObjects(objects)` on the reference level: recursively
expands the `objects` field of boolean-typed nodes depth-first, preserving
order, yielding only non-boolean leaves. -/
def refFlatten (f : ℕ) (σ : Store α) (objects : List (JVal α)) : List (JVal α) :=
  objects.flatMap (refFlattenOne f σ)

mutual

/-- Test that every object reference inside a value has handle `< n`. -/
def handlesLt (n : ℕ) : JVal α → Bool
  | .num _ => true
  | .str _ => true
  | .bool _ => true
  | .undefined => true
  | .objRef h => decide (h < n)
  | .arr l => handlesLtList n l

/-- List version of `handlesLt`. -/
def handlesLtList (n : ℕ) : List (JVal α) → Bool
  | [] => true
  | v :: rest => handlesLt n v && handlesLtList n rest

end

/-- Test that every object reference inside an object entry has handle `< n`. -/
def handlesLtObj (n : ℕ) (o : CADObj α) : Bool :=
  handlesLtList n (o.map Prod.snd)

/-- Allocation-ordered store: every entry references only earlier entries.
Evaluation only ever produces such stores (children are allocated before the
nodes that contain them), and on such stores `refFlatten` and `derefVal`
are fuel-independent. -/
def decreasingStore (σ : Store α) : Prop :=
  ∀ i : ℕ, ∀ hi : i < σ.length, handlesLtObj i σ[i] = true

mutual

/-- Shift every object reference inside a value by `b` (relocation of a
heap segment to base address `b`). -/
def shiftVal (b : ℕ) : JVal α → JVal α
  | .num x => .num x
  | .str s => .str s
  | .bool v => .bool v
  | .undefined => .undefined
  | .objRef h => .objRef (b + h)
  | .arr l => .arr (shiftValList b l)

/-- List version of `shiftVal`. -/
def shiftValList (b : ℕ) : List (JVal α) → List (JVal α)
  | [] => []
  | v :: rest => shiftVal b v :: shiftValList b rest

end

/-- Shift every object reference inside an object entry by `b`. -/
def shiftObj (b : ℕ) (o : CADObj α) : CADObj α :=
  o.map fun p => (p.1, shiftVal b p.2)

/-- Shift every object reference inside a store segment by `b`. -/
def shiftStore (b : ℕ) (σ : Store α) : Store α :=
  σ.map (shiftObj b)

/-- Deep structural value: a JavaScript value with every object reference
replaced by the referenced object, recursively.  Used to state structural
identity of execution outputs independently of heap addresses. -/
inductive DVal (α : Type) where
  | num (x : α)
  | str (s : String)
  | bool (b : Bool)
  | arr (elems : List (DVal α))
  | obj (fields : List (String × DVal α))
  | undefined
  | dangling
deriving Repr

mutual

/-- Single level of deep dereference: `recurRef` says what to do at an
object reference; arrays are walked structurally. -/
def derefStep (recurRef : ℕ → DVal α) : JVal α → DVal α
  | .num x => .num x
  | .str s => .str s
  | .bool b => .bool b
  | .undefined => .undefined
  | .objRef h => recurRef h
  | .arr l => .arr (derefStepList recurRef l)

/-- List version of `derefStep`. -/
def derefStepList (recurRef : ℕ → DVal α) : List (JVal α) → List (DVal α)
  | [] => []
  | v :: rest => derefStep recurRef v :: derefStepList recurRef rest

end

/-- Dereference the fields of a store entry with a given recursion for the
field values. -/
def derefFields (recur : JVal α → DVal α) (o : CADObj α) : List (String × DVal α) :=
  o.map fun p => (p.1, recur p.2)

/-- Deep dereference of a value in a store, to reference depth `f`: object
references are replaced by their (recursively dereferenced) objects; a
broken reference, or reference-depth exhaustion, is `dangling`.  Two
execution outputs are structurally identical when their dereferences agree
at every depth. -/
def derefVal : ℕ → Store α → JVal α → DVal α
  | 0, _, v => derefStep (fun _ => .dangling) v
  | f + 1, σ, v =>
    derefStep (fun h =>
      match σ[h]? with
      | some o => .obj (derefFields (derefVal f σ) o)
      | none => .dangling) v

/-- Literal expression of the scripting dialects (numbers, strings, booleans
and array literals).  Scripts have no way to write a heap reference
literally, which is why every reference occurring during a run points into
that run's freshly allocated segment. -/
inductive Lit (α : Type) where
  | num (x : α)
  | str (s : String)
  | bool (b : Bool)
  | arr (elems : List (Lit α))

mutual

/-- Value of a literal expression. -/
def litVal : Lit α → JVal α
  | .num x => .num x
  | .str s => .str s
  | .bool b => .bool b
  | .arr l => .arr (litValList l)

/-- List version of `litVal`. -/
def litValList : List (Lit α) → List (JVal α)
  | [] => []
  | v :: rest => litVal v :: litValList rest

end

/-- Native-expression call syntax, as exposed by the evaluation sandboxes of
both engines (`createSandbox` in `javascript-engine.js`,
`createOpenSCADSandbox` in `openscad-engine.js`).  Object-valued arguments
(the target of a transform, the shape of an extrusion or 2D operation, the
elements of a boolean array argument) are sub-expressions; all other
arguments are literals or array literals of sub-expressions (`arrExpr`).
Both sandboxes also bind the host `Math` object (`Math: Math`), so a script
can call `Math.random()`: `mathRandom` models that call.  `throwErr` models
a script statement that throws, `undefinedRef` a reference to an identifier
absent from the sandbox. -/
inductive NExpr (α : Type) where
  | cube (args : List (Lit α))
  | sphere (args : List (Lit α))
  | cylinder (args : List (Lit α))
  | rectangle (args : List (Lit α))
  | circle (args : List (Lit α))
  | polygon (args : List (Lit α))
  | arc (args : List (Lit α))
  | line (args : List (Lit α))
  | linear_extrude (shape : NExpr α) (args : List (Lit α))
  | rotate_extrude (shape : NExpr α) (args : List (Lit α))
  | offset (shape : NExpr α) (args : List (Lit α))
  | fillet (shape : NExpr α) (args : List (Lit α))
  | chamfer (shape : NExpr α) (args : List (Lit α))
  | translate (object : NExpr α) (vector : NExpr α)
  | rotate (object : NExpr α) (angles : NExpr α)
  | scale (object : NExpr α) (factors : NExpr α)
  | lit (v : Lit α)
  | arrExpr (elems : List (NExpr α))
  | mathRandom
  | union (objects : List (NExpr α))
  | difference (objects : List (NExpr α))
  | intersection (objects : List (NExpr α))
  | throwErr (msg : String)
  | undefinedRef (name : String)

/-- The engine variant owning the sandbox: the Native-Expression
(JavaScript) engine or the Transpiled-OpenSCAD engine. -/
inductive EngineKind where
  | js
  | openscad
deriving DecidableEq, Repr

/-- Whether the engine's 3D primitive constructors record their output in
`this.generatedGeometry`: `JavaScriptEngine` overrides
`createCube/createSphere/createCylinder` to push, `OpenSCADEngine` does not
override them (so they never touch the accumulator). -/
def pushes3D : EngineKind → Bool
  | .js => true
  | .openscad => false

/-- Evaluation state: the heap segment of the current `execute` call, the
engine's `generatedGeometry` accumulator (`none` models the field never
having been initialized, as in `OpenSCADEngine`), and the state of the host
pseudo-random generator behind `Math.random` (a stream of the values the
next calls will return). -/
structure EvalSt (α : Type) where
  store : Store α
  acc : Option (List (JVal α))
  rng : ℕ → α

/-- Allocate a freshly constructed object; if `doPush`, additionally run
`this.generatedGeometry.push(obj)` — which throws a `TypeError` when the
accumulator field was never initialized (the object is still allocated,
since `super.createX` completed first). -/
def allocPush (doPush : Bool) (o : CADObj α) (st : EvalSt α) :
    Except String (JVal α) × EvalSt α :=
  let h := st.store.length
  let store := st.store ++ [o]
  if doPush then
    match st.acc with
    | some l => (.ok (.objRef h), ⟨store, some (l ++ [.objRef h]), st.rng⟩)
    | none =>
      (.error "TypeError: Cannot read properties of undefined (reading push)",
       ⟨store, none, st.rng⟩)
  else (.ok (.objRef h), ⟨store, st.acc, st.rng⟩)

/-- Apply an in-place transform (`translate`/`rotate`/`scale`): the guard
`if (!object) return object` passes falsy targets through; a valid object
reference is mutated in the store and the same reference is returned.  A
JavaScript array passed as the `object` (which is what the transpiled
OpenSCAD call `translate([x,y,z], body)` does, since the sandbox signature
is `(object, vector)`) gets a `position`/`rotation`/`scale` property
attached and is returned unchanged otherwise; that property is invisible to
every later consumer (array iteration sees only the elements), so we model
the array target as returned as-is.  A truthy primitive target makes the
indexed write throw. -/
def applyTransform (tf : CADObj α → JVal α → CADObj α) (v : JVal α)
    (arg : JVal α) (st : EvalSt α) : Except String (JVal α) × EvalSt α :=
  if ¬ truthy v then (.ok v, st)
  else
    match v with
    | .objRef h =>
      match st.store[h]? with
      | some o => (.ok v, ⟨st.store.set h (tf o arg), st.acc, st.rng⟩)
      | none => (.error "TypeError: invalid object reference", st)
    | .arr _ => (.ok v, st)
    | _ => (.error "TypeError: cannot create property on primitive", st)

mutual

/-- Evaluation of one native-expression call against the sandbox of engine
`cfg`.  Creator calls build the object via the command library and allocate
it; the 2D, extrusion and 2D-operation constructors are overridden in both
engines to also push onto `generatedGeometry`, while the 3D constructors
push only in the JavaScript engine (`pushes3D`).  Transforms mutate in
place and return the same reference; boolean operations wrap their
(evaluated) array argument without touching the accumulator.
`Math.random()` returns the head of the PRNG stream and advances it.
Errors propagate outward like JavaScript exceptions. -/
def evalExpr (cfg : EngineKind) : NExpr α → EvalSt α → Except String (JVal α) × EvalSt α
  | .cube args, st => allocPush (pushes3D cfg) (createCube (litValList args)) st
  | .sphere args, st => allocPush (pushes3D cfg) (createSphere (litValList args)) st
  | .cylinder args, st => allocPush (pushes3D cfg) (createCylinder (litValList args)) st
  | .rectangle args, st => allocPush true (createRectangle (litValList args)) st
  | .circle args, st => allocPush true (createCircle (litValList args)) st
  | .polygon args, st => allocPush true (createPolygon (litValList args)) st
  | .arc args, st => allocPush true (createArc (litValList args)) st
  | .line args, st => allocPush true (createLine (litValList args)) st
  | .linear_extrude shape args, st =>
    match evalExpr cfg shape st with
    | (.error e, st₁) => (.error e, st₁)
    | (.ok sv, st₁) => allocPush true (linearExtrudeObj sv (litValList args)) st₁
  | .rotate_extrude shape args, st =>
    match evalExpr cfg shape st with
    | (.error e, st₁) => (.error e, st₁)
    | (.ok sv, st₁) => allocPush true (rotateExtrudeObj sv (litValList args)) st₁
  | .offset shape args, st =>
    match evalExpr cfg shape st with
    | (.error e, st₁) => (.error e, st₁)
    | (.ok sv, st₁) => allocPush true (offsetObj sv (litValList args)) st₁
  | .fillet shape args, st =>
    match evalExpr cfg shape st with
    | (.error e, st₁) => (.error e, st₁)
    | (.ok sv, st₁) => allocPush true (filletObj sv (litValList args)) st₁
  | .chamfer shape args, st =>
    match evalExpr cfg shape st with
    | (.error e, st₁) => (.error e, st₁)
    | (.ok sv, st₁) => allocPush true (chamferObj sv (litValList args)) st₁
  | .translate object vector, st =>
    match evalExpr cfg object st with
    | (.error e, st₁) => (.error e, st₁)
    | (.ok v, st₁) =>
      match evalExpr cfg vector st₁ with
      | (.error e, st₂) => (.error e, st₂)
      | (.ok av, st₂) => applyTransform translateObj v av st₂
  | .rotate object angles, st =>
    match evalExpr cfg object st with
    | (.error e, st₁) => (.error e, st₁)
    | (.ok v, st₁) =>
      match evalExpr cfg angles st₁ with
      | (.error e, st₂) => (.error e, st₂)
      | (.ok av, st₂) => applyTransform rotateObj v av st₂
  | .scale object factors, st =>
    match evalExpr cfg object st with
    | (.error e, st₁) => (.error e, st₁)
    | (.ok v, st₁) =>
      match evalExpr cfg factors st₁ with
      | (.error e, st₂) => (.error e, st₂)
      | (.ok av, st₂) => applyTransform scaleObj v av st₂
  | .lit v, st => (.ok (litVal v), st)
  | .arrExpr elems, st =>
    match evalExprList cfg elems st with
    | (.error e, st₁) => (.error e, st₁)
    | (.ok vs, st₁) => (.ok (.arr vs), st₁)
  | .mathRandom, st =>
    (.ok (.num (st.rng 0)), ⟨st.store, st.acc, fun n => st.rng (n + 1)⟩)
  | .union objects, st =>
    match evalExprList cfg objects st with
    | (.error e, st₁) => (.error e, st₁)
    | (.ok vs, st₁) => allocPush false (unionObj (.arr vs)) st₁
  | .difference objects, st =>
    match evalExprList cfg objects st with
    | (.error e, st₁) => (.error e, st₁)
    | (.ok vs, st₁) => allocPush false (differenceObj (.arr vs)) st₁
  | .intersection objects, st =>
    match evalExprList cfg objects st with
    | (.error e, st₁) => (.error e, st₁)
    | (.ok vs, st₁) => allocPush false (intersectionObj (.arr vs)) st₁
  | .throwErr msg, st => (.error msg, st)
  | .undefinedRef name, st => (.error (name ++ " is not defined"), st)

/-- Left-to-right evaluation of the elements of an array-literal argument;
the first exception aborts the rest. -/
def evalExprList (cfg : EngineKind) : List (NExpr α) → EvalSt α →
    Except String (List (JVal α)) × EvalSt α
  | [], st => (.ok [], st)
  | e :: rest, st =>
    match evalExpr cfg e st with
    | (.error err, st₁) => (.error err, st₁)
    | (.ok v, st₁) =>
      match evalExprList cfg rest st₁ with
      | (.error err, st₂) => (.error err, st₂)
      | (.ok vs, st₂) => (.ok (v :: vs), st₂)

end

/-- Execution-result record, covering every field any engine return path
writes: `JavaScriptEngine.execute` returns `{success, data, message}` on
success and `{success, error, message}` on failure; the base-engine helpers
`createSuccess`/`createError` (used by `OpenSCADEngine`) return `{success,
objects, error}` and `{success, error, line, column, objects}`.  A field an
object literal does not mention is `none` (we do not distinguish a key set
to `null` from an absent key; no claim does either). -/
structure ExecResult (α : Type) where
  success : Bool
  data : Option (List (JVal α)) := none
  objects : Option (List (JVal α)) := none
  error : Option String := none
  message : Option String := none
  line : Option Nat := none
  column : Option Nat := none

/-- `BaseEngine.createError(message, line = null, column = null)`. -/
def createError (message : String) : ExecResult α :=
  { success := false, error := some message, objects := some [] }

/-- `BaseEngine.createSuccess(objects)`. -/
def createSuccess (objects : List (JVal α)) : ExecResult α :=
  { success := true, objects := some objects, error := none }

/-- Per-engine-instance mutable state: the persistent heap of objects the
instance has created across its lifetime, the `generatedGeometry`
accumulator field (`none` while the field has never been assigned — which
is forever, in `OpenSCADEngine`), and the current state of the host PRNG
behind the `Math.random` the sandbox exposes.  The PRNG belongs to the host
and is not reseeded between `execute` calls, so the stream left by one call
is the stream the next call starts from. -/
structure EngineState (α : Type) where
  store : Store α
  generatedGeometry : Option (List (JVal α))
  rng : ℕ → α

/-- State of a freshly constructed `JavaScriptEngine`: its constructor runs
`this.generatedGeometry = []`.  The host PRNG stream `ρ` at construction
time is arbitrary (the host seeds it, not the engine), so it is a
parameter. -/
def freshJSEngineState (ρ : ℕ → α) : EngineState α := ⟨[], some [], ρ⟩

/-- State of a freshly constructed `OpenSCADEngine`: no constructor (its own
or inherited) ever initializes `generatedGeometry`; the host PRNG stream is
a parameter as in `freshJSEngineState`. -/
def freshOpenSCADEngineState (ρ : ℕ → α) : EngineState α := ⟨[], none, ρ⟩

/-- Shift the handles held in an accumulator by `b`. -/
def shiftAcc (b : ℕ) : Option (List (JVal α)) → Option (List (JVal α))
  | none => none
  | some l => some (l.map (shiftVal b))

/-- Source text submitted to the Native-Expression engine, after the
JavaScript parse performed by `new Function`: either the parse throws a
`SyntaxError` carrying a message, or the text is a sequence of statements.
The empty source text is `program []`. -/
inductive JSource (α : Type) where
  | syntaxError (msg : String)
  | program (stmts : List (NExpr α))

/-- Body of the wrapper function `JavaScriptEngine.execute` builds: the
statements run in order inside `try { with (sandbox) { ... } } catch (e) {
console.log(...) }`, so the first runtime exception abandons the remaining
statements but is swallowed; whatever state had accumulated up to the fault
is kept. -/
def jsRunStmts (cfg : EngineKind) : List (NExpr α) → EvalSt α → EvalSt α
  | [], st => st
  | e :: rest, st =>
    match evalExpr cfg e st with
    | (.ok _, st₁) => jsRunStmts cfg rest st₁
    | (.error _, st₁) => st₁

/-- `JavaScriptEngine.execute(script)` (lines 131–231).  Order of effects:
`this.generatedGeometry = []` is reset first; then `new Function` parses the
wrapped script — a parse failure is caught by the inner `catch
(executionError)` and returned as `{success: false, error, message}`; an
execution with no parse failure always reaches `return {success: true,
data: this.generatedGeometry, message}` because every runtime fault is
swallowed inside the generated wrapper.  The returned `data` is the raw
accumulator — `flattenObjects` is never applied and there is no `objects`
field on this path. -/
def jsExecute (src : JSource α) (eng : EngineState α) :
    ExecResult α × EngineState α :=
  let eng := { eng with generatedGeometry := some [] }
  match src with
  | .syntaxError msg =>
    ({ success := false, error := some msg,
       message := some "Script execution failed" }, eng)
  | .program stmts =>
    let fin := jsRunStmts .js stmts ⟨[], some [], eng.rng⟩
    let b := eng.store.length
    let dataRefs := (fin.acc.getD []).map (shiftVal b)
    ({ success := true, data := some dataRefs,
       message := some "Script executed successfully" },
     { store := eng.store ++ shiftStore b fin.store,
       generatedGeometry := some dataRefs,
       rng := fin.rng })

/-- `OpenSCADEngine.processResult(result)` / `JavaScriptEngine.processResult`:
an array result is flattened element-wise, an object result with a truthy
`type` is flattened as a singleton, and anything else contributes no
objects. -/
def processResult (σ : Store α) (v : JVal α) : List (JVal α) :=
  if ¬ truthy v then []
  else
    match v with
    | .arr l => refFlatten (σ.length + 1) σ l
    | .objRef h =>
      if truthy (objGet (σ.getD h []) "type") then
        refFlatten (σ.length + 1) σ [v]
      else []
    | _ => []

/-- Boolean block kinds of the OpenSCAD dialect. -/
inductive ScadBoolKind where
  | union
  | difference
  | intersection
deriving DecidableEq, Repr

/-- Non-block OpenSCAD call statements covered by the transpiler patterns of
`OpenSCADEngine.parseOpenSCAD` plus the calls the transpiler passes through
verbatim to the sandbox (2D shapes, extrusions, 2D operations, which have
no rewrite rule).  Argument conventions record exactly what the regexes
capture. -/
inductive ScadCall (α : Type) where
  | cubeA (x y z : α) (center : Option Bool)
  | cubeS (s : α) (center : Option Bool)
  | sphereCall (r : α) (fn : Option α)
  | cylinderCall (h : α) (r : Option α) (fn : Option α)
  | circleCall (args : List (Lit α))
  | squareCall (args : List (Lit α))
  | rectangleCall (args : List (Lit α))
  | polygonCall (args : List (Lit α))
  | arcCall (args : List (Lit α))
  | lineCall (args : List (Lit α))
  | linearExtrudeCall (shape : ScadCall α) (args : List (Lit α))
  | rotateExtrudeCall (shape : ScadCall α) (args : List (Lit α))
  | offsetCall (shape : ScadCall α) (args : List (Lit α))
  | filletCall (shape : ScadCall α) (args : List (Lit α))
  | chamferCall (shape : ScadCall α) (args : List (Lit α))

/-- One OpenSCAD statement of the forms the transpiler supports: a plain
call (with its statement-terminating semicolon, dropped by the final
`;\s*$` rewrite), or a transform/boolean block.  `bodySemi`/`lastSemi`
record whether the (last) statement inside the braces carries its
customary trailing semicolon: the block rewrites keep that semicolon
inside the generated argument list, where neither semicolon-to-comma rule
can remove it (it is not followed by a letter, nor at the end of the
text), so the generated JavaScript fails to parse. -/
inductive ScadStmt (α : Type) where
  | call (c : ScadCall α)
  | translateBlock (x y z : α) (body : ScadCall α) (bodySemi : Bool)
  | rotateBlock (x y z : α) (body : ScadCall α) (bodySemi : Bool)
  | scaleBlock (x y z : α) (body : ScadCall α) (bodySemi : Bool)
  | boolBlock (k : ScadBoolKind) (body : List (ScadCall α)) (lastSemi : Bool)

/-- Transpilation of a single call, following the `parseOpenSCAD` rewrite
rules: `cube([x,y,z], center=true)` gains a second array argument
`[x/2, y/2, z/2]` (the intended centering offset — which `createCube`
ignores, having only a `size` parameter); scalar `cube(s)` is expanded to
`cube([s,s,s])`; `sphere`/`cylinder` named arguments are reordered to the
positional native form (`cylinder(r || 1, h, fn)`); everything else has no
rewrite rule and passes through verbatim. -/
def transpileCall : ScadCall α → NExpr α
  | .cubeA x y z center =>
    .cube ([.arr [.num x, .num y, .num z]] ++
      (if center = some true then
        [Lit.arr [.num (x / 2), .num (y / 2), .num (z / 2)]] else []))
  | .cubeS s center =>
    .cube ([.arr [.num s, .num s, .num s]] ++
      (if center = some true then
        [Lit.arr [.num (s / 2), .num (s / 2), .num (s / 2)]] else []))
  | .sphereCall r fn =>
    .sphere ([.num r] ++ (match fn with | some f => [Lit.num f] | none => []))
  | .cylinderCall h r fn =>
    .cylinder ([.num (r.getD 1), .num h] ++
      (match fn with | some f => [Lit.num f] | none => []))
  | .circleCall args => .circle args
  | .squareCall args => .rectangle args
  | .rectangleCall args => .rectangle args
  | .polygonCall args => .polygon args
  | .arcCall args => .arc args
  | .lineCall args => .line args
  | .linearExtrudeCall shape args => .linear_extrude (transpileCall shape) args
  | .rotateExtrudeCall shape args => .rotate_extrude (transpileCall shape) args
  | .offsetCall shape args => .offset (transpileCall shape) args
  | .filletCall shape args => .fillet (transpileCall shape) args
  | .chamferCall shape args => .chamfer (transpileCall shape) args

/-- Transpilation of one OpenSCAD statement, i.e. the composite outcome of
`parseOpenSCAD` followed by the JavaScript parse inside `new Function`.
Transform blocks become `translate([x, y, z], body)` — the vector array in
the `object` position, because the sandbox signature is `(object, vector)`
— with `rotate` angles multiplied by `Math.PI / 180` in the generated text;
boolean blocks become `union([body])`.  When the braced body keeps its
trailing semicolon the generated text (for example `rotate([...],
cube([10, 10, 10]);)`) is not valid JavaScript and `new Function` throws a
`SyntaxError`, modelled as `.error`. -/
def transpileStmt [PiConst α] : ScadStmt α → Except String (NExpr α)
  | .call c => .ok (transpileCall c)
  | .translateBlock x y z body bodySemi =>
    if bodySemi then .error "SyntaxError: Unexpected token ;"
    else .ok (.translate (.lit (.arr [.num x, .num y, .num z]))
                         (transpileCall body))
  | .rotateBlock x y z body bodySemi =>
    if bodySemi then .error "SyntaxError: Unexpected token ;"
    else .ok (.rotate (.lit (.arr
      [.num (x * PiConst.piVal / 180), .num (y * PiConst.piVal / 180),
       .num (z * PiConst.piVal / 180)])) (transpileCall body))
  | .scaleBlock x y z body bodySemi =>
    if bodySemi then .error "SyntaxError: Unexpected token ;"
    else .ok (.scale (.lit (.arr [.num x, .num y, .num z]))
                     (transpileCall body))
  | .boolBlock k body lastSemi =>
    if lastSemi then .error "SyntaxError: Unexpected token ;"
    else
      let elems := body.map transpileCall
      .ok (match k with
        | .union => .union elems
        | .difference => .difference elems
        | .intersection => .intersection elems)

/-- `OpenSCADEngine.execute(script)` (lines 102–125): transpile, evaluate
the transpiled expression (`return <parsed>;` inside `with (sandbox)`),
flatten via `processResult`, and wrap in `createSuccess`; every throw —
the `SyntaxError` from `new Function` as well as any runtime exception
(notably the `TypeError` from pushing onto the never-initialized
`generatedGeometry`) — reaches the `catch` and becomes
`createError(error.message)`. -/
def scadExecute (src : ScadStmt α) (eng : EngineState α) :
    ExecResult α × EngineState α :=
  match transpileStmt src with
  | .error msg => (createError msg, eng)
  | .ok e =>
    match evalExpr .openscad e ⟨[], eng.generatedGeometry, eng.rng⟩ with
    | (.error msg, st₁) =>
      let b := eng.store.length
      (createError msg,
       { store := eng.store ++ shiftStore b st₁.store,
         generatedGeometry := shiftAcc b st₁.acc,
         rng := st₁.rng })
    | (.ok v, st₁) =>
      let objs := processResult st₁.store v
      let b := eng.store.length
      (createSuccess (objs.map (shiftVal b)),
       { store := eng.store ++ shiftStore b st₁.store,
         generatedGeometry := shiftAcc b st₁.acc,
         rng := st₁.rng })

/-- Engine instances registered by `ScriptEngineManager.initializeEngines`. -/
inductive EngineTag where
  | javascriptEngine
  | typescriptEngine
  | openscadEngine
deriving DecidableEq, Repr

/-- `ScriptEngineManager` state: the registry map, the current language id
and the current engine. -/
structure ManagerState where
  engines : List (String × EngineTag)
  currentLanguage : String
  currentEngine : Option EngineTag
deriving DecidableEq, Repr

/-- `this.engines.get(language)`. -/
def lookupEngine (es : List (String × EngineTag)) (k : String) : Option EngineTag :=
  (es.find? (fun p => p.1 = k)).map (fun p => p.2)

/-- `ScriptEngineManager` constructor plus `initializeEngines`: registers
the three engines and selects the default one by registry lookup. -/
def mkScriptEngineManager : ManagerState :=
  let engines := [("javascript", EngineTag.javascriptEngine),
                  ("typescript", EngineTag.typescriptEngine),
                  ("openscad", EngineTag.openscadEngine)]
  { engines := engines,
    currentLanguage := "javascript",
    currentEngine := lookupEngine engines "javascript" }

/-- `ScriptEngineManager.setLanguage(language)` (lines 25–38): early return
when the id is already current; a missing registry entry is logged
(`console.warn`) and leaves the state unchanged; otherwise both
`currentLanguage` and `currentEngine` switch. -/
def setLanguage (st : ManagerState) (language : String) : ManagerState :=
  if st.currentLanguage = language then st
  else
    match lookupEngine st.engines language with
    | none => st
    | some e => { st with currentLanguage := language, currentEngine := some e }

/-- `ScriptEngineManager.getCurrentLanguage()`. -/
def getCurrentLanguage (st : ManagerState) : String :=
  st.currentLanguage

/-! ## Helper lemmas -/

theorem objGet_nil (k : String) : objGet ([] : CADObj α) k = .undefined := rfl

theorem objGet_cons (a : String) (b : JVal α) (rest : CADObj α) (k : String) :
    objGet ((a, b) :: rest) k = if a = k then b else objGet rest k := by
  simp only [objGet, List.find?_cons]
  by_cases h : a = k <;> simp [h]

theorem objGet_objSet_self (o : CADObj α) (k : String) (v : JVal α) :
    objGet (objSet o k v) k = v := by
  induction o with
  | nil => simp [objSet, objGet_cons]
  | cons p rest ih =>
    obtain ⟨k₀, v₀⟩ := p
    by_cases hk : k₀ = k
    · simp [objSet, hk, objGet_cons]
    · simp [objSet, hk, objGet_cons, ih]

theorem objGet_objSet_ne (o : CADObj α) (k k' : String) (v : JVal α)
    (h : k' ≠ k) : objGet (objSet o k v) k' = objGet o k' := by
  induction o with
  | nil =>
    have : k ≠ k' := fun hh => h hh.symm
    simp [objSet, objGet_cons, this]
  | cons p rest ih =>
    obtain ⟨k₀, v₀⟩ := p
    by_cases hk : k₀ = k
    · subst hk
      have : k₀ ≠ k' := fun hh => h hh.symm
      simp [objSet, objGet_cons, this]
    · by_cases hk' : k₀ = k'
      · subst hk'
        have hkk : k₀ ≠ k := hk
        have hks : ¬ k₀ = k := hkk
        simp [objSet, hks, objGet_cons]
      · simp [objSet, hk, objGet_cons, hk', ih]

theorem jsOr_num_zero (x : α) : jsOr (.num x) (.num 0) = .num x := by
  unfold jsOr truthy
  by_cases h : x = 0
  · subst h
    simp
  · simp [h]

theorem jsOr_num_self_one : jsOr (.num (1 : α)) (.num 1) = .num 1 := by
  unfold jsOr
  split <;> rfl

theorem truthy_num_zero : truthy (.num (0 : α)) = false := by
  simp [truthy]

/-! ## C6: engine-manager fallback -/

/-- C6: for every language id absent from the registry, `setLanguage`
leaves the manager state (in particular `getCurrentLanguage()` and the
current engine) unchanged and raises nothing; when the id is already
current it is a no-op; when the id is registered (and not current) the
manager switches language and engine. -/
theorem c6_manager_fallback (st : ManagerState) (id : String) :
    (lookupEngine st.engines id = none → setLanguage st id = st) ∧
    (id = st.currentLanguage → setLanguage st id = st) ∧
    (∀ e : EngineTag, lookupEngine st.engines id = some e →
      id ≠ st.currentLanguage →
      setLanguage st id =
        { st with currentLanguage := id, currentEngine := some e }) := by
  refine ⟨?_, ?_, ?_⟩
  · intro hnone
    unfold setLanguage
    by_cases hc : st.currentLanguage = id
    · simp [hc]
    · simp [hc, hnone]
  · intro hc
    unfold setLanguage
    simp [hc.symm]
  · intro e hsome hne
    unfold setLanguage
    have hc : ¬ st.currentLanguage = id := fun h => hne h.symm
    simp [hc, hsome]

/-- Witness for C6 on the concrete manager built by `initializeEngines`:
`nonexistent` is rejected without any state change, the current id is a
no-op, and `openscad` switches. -/
theorem c6_manager_fallback_witness :
    setLanguage mkScriptEngineManager "nonexistent" = mkScriptEngineManager ∧
    setLanguage mkScriptEngineManager "javascript" = mkScriptEngineManager ∧
    setLanguage mkScriptEngineManager "openscad" =
      { mkScriptEngineManager with
          currentLanguage := "openscad",
          currentEngine := some EngineTag.openscadEngine } :=
  ⟨(c6_manager_fallback mkScriptEngineManager "nonexistent").1 (by decide),
   (c6_manager_fallback mkScriptEngineManager "javascript").2.1 (by decide),
   (c6_manager_fallback mkScriptEngineManager "openscad").2.2
     EngineTag.openscadEngine (by decide) (by decide)⟩

theorem jsOr_undefined (b : JVal α) : jsOr .undefined b = b := rfl

/-! ## C10: transforms destroy the 2D transform shape -/

/-- C10: every 2D constructor creates its object with `position = [0, 0]`
and the scalar `rotation = 0`; `translate` on any object whose position is
a 2-element numeric vector writes a third component, leaving a 3-element
position `[p + v₀, q + v₁, 0 + v₂]`; and `rotate` on any object whose
rotation is the (falsy) scalar `0` discards the scalar, replaces it by a
3-element array, and adds the angles, leaving `[0 + a₀, 0 + a₁, 0 + a₂]`.
So a transformed object carries a 3-element position/rotation in the
touched field regardless of its 2D or 3D kind. -/
theorem c10_transforms_destroy_2d_shape (o : CADObj α)
    (p q v₀ v₁ v₂ a₀ a₁ a₂ : α) (args : List (JVal α)) :
    (objGet (createRectangle args) "position" = .arr [.num 0, .num 0] ∧
     objGet (createRectangle args) "rotation" = .num 0 ∧
     objGet (createCircle args) "position" = .arr [.num 0, .num 0] ∧
     objGet (createCircle args) "rotation" = .num 0 ∧
     objGet (createPolygon args) "position" = .arr [.num 0, .num 0] ∧
     objGet (createPolygon args) "rotation" = .num 0 ∧
     objGet (createArc args) "position" = .arr [.num 0, .num 0] ∧
     objGet (createArc args) "rotation" = .num 0 ∧
     objGet (createLine args) "position" = .arr [.num 0, .num 0] ∧
     objGet (createLine args) "rotation" = .num 0) ∧
    (objGet o "position" = .arr [.num p, .num q] →
      objGet (translateObj o (.arr [.num v₀, .num v₁, .num v₂])) "position" =
        .arr [.num (p + v₀), .num (q + v₁), .num (0 + v₂)]) ∧
    (objGet o "rotation" = .num 0 →
      objGet (rotateObj o (.arr [.num a₀, .num a₁, .num a₂])) "rotation" =
        .arr [.num (0 + a₀), .num (0 + a₁), .num (0 + a₂)]) := by
  refine ⟨⟨?_, ?_, ?_, ?_, ?_, ?_, ?_, ?_, ?_, ?_⟩, ?_, ?_⟩
  · simp [createRectangle, objGet_cons]
  · simp [createRectangle, objGet_cons]
  · simp [createCircle, objGet_cons]
  · simp [createCircle, objGet_cons]
  · simp [createPolygon, objGet_cons]
  · simp [createPolygon, objGet_cons]
  · simp [createArc, objGet_cons]
  · simp [createArc, objGet_cons]
  · simp [createLine, objGet_cons]
  · simp [createLine, objGet_cons]
  · intro h
    simp [translateObj, h, truthy, objGet_objSet_self, getIdx, setIdx, arrSet,
      jsAdd, jsOr_num_zero, jsOr_undefined]
  · intro h
    simp [rotateObj, h, truthy_num_zero, objGet_objSet_self, getIdx, setIdx,
      arrSet, jsAdd, jsOr_num_zero, jsOr_undefined]

/-- Witness for C10: translating / rotating a freshly created rectangle at
concrete inputs yields the predicted 3-element position and rotation. -/
theorem c10_transforms_destroy_2d_shape_witness :
    objGet (translateObj (createRectangle ([] : List (JVal ℚ)))
        (.arr [.num 1, .num 2, .num 3])) "position" =
      .arr [.num (0 + 1), .num (0 + 2), .num (0 + 3)] ∧
    objGet (rotateObj (createRectangle ([] : List (JVal ℚ)))
        (.arr [.num 4, .num 5, .num 6])) "rotation" =
      .arr [.num (0 + 4), .num (0 + 5), .num (0 + 6)] :=
  ⟨(c10_transforms_destroy_2d_shape (createRectangle []) 0 0 1 2 3 4 5 6
      []).2.1 (by rfl),
   (c10_transforms_destroy_2d_shape (createRectangle []) 0 0 1 2 3 4 5 6
      []).2.2 (by rfl)⟩

/-! ## C1: containment in the Native-Expression engine -/

/-- C1 counterexample: the claim demands `success = false` with a non-empty
error for every malformed source, listing the empty string and a runtime
exception thrown mid-script among the malformed inputs.  The code instead
returns `success = true` (with no error field) for both: the empty string
parses to an empty program, and runtime exceptions are silently swallowed
inside the generated wrapper, after which `execute` still reaches its
success return. -/
theorem c1_containment_counterexample :
    (jsExecute (.program ([] : List (NExpr ℚ))) (freshJSEngineState (fun _ => 0))).1.success
      = true ∧
    (jsExecute (.program ([] : List (NExpr ℚ)))
      (freshJSEngineState (fun _ => 0))).1.error = none ∧
    (jsExecute (.program [NExpr.throwErr "boom"])
      (freshJSEngineState (α := ℚ) (fun _ => 0))).1.success = true ∧
    (jsExecute (.program [NExpr.undefinedRef "frobnicate"])
      (freshJSEngineState (α := ℚ) (fun _ => 0))).1.success = true :=
  ⟨rfl, rfl, rfl, rfl⟩

/-- C1 as amended: `JavaScriptEngine.execute` is a total function of the
source (no exception ever escapes to the caller), and it returns
`{success: false, error: non-empty}` exactly for source text that fails to
parse (a `SyntaxError` from `new Function`, whose message is non-empty);
for source that parses — including the empty string, scripts referencing
undefined commands, and scripts that throw mid-run — every runtime fault is
swallowed inside the generated wrapper and `execute` returns
`{success: true}` with no error field. -/
theorem c1_containment_amended (msg : String) (stmts : List (NExpr α))
    (eng eng' : EngineState α) :
    (msg ≠ "" →
      (jsExecute (.syntaxError msg) eng).1.success = false ∧
      ∃ m, (jsExecute (.syntaxError msg) eng).1.error = some m ∧ m ≠ "") ∧
    ((jsExecute (.program stmts) eng').1.success = true ∧
     (jsExecute (.program stmts) eng').1.error = none) := by
  refine ⟨fun hmsg => ⟨rfl, msg, rfl, hmsg⟩, rfl, rfl⟩

/-- Witness for C1 (amended): a concrete syntax error yields a failure
result with its non-empty message, and a concrete runtime-throwing program
yields a success result. -/
theorem c1_containment_amended_witness :
    ((jsExecute (.syntaxError "SyntaxError: Unexpected token")
        (freshJSEngineState (α := ℚ) (fun _ => 0))).1.success = false ∧
      ∃ m, (jsExecute (.syntaxError "SyntaxError: Unexpected token")
        (freshJSEngineState (α := ℚ) (fun _ => 0))).1.error = some m ∧ m ≠ "") ∧
    ((jsExecute (.program [NExpr.throwErr "kaboom"])
        (freshJSEngineState (α := ℚ) (fun _ => 0))).1.success = true ∧
     (jsExecute (.program [NExpr.throwErr "kaboom"])
        (freshJSEngineState (α := ℚ) (fun _ => 0))).1.error = none) :=
  ⟨(c1_containment_amended "SyntaxError: Unexpected token"
      [NExpr.throwErr "kaboom"] (freshJSEngineState (fun _ => 0)) (freshJSEngineState (fun _ => 0))).1
      (by decide),
   (c1_containment_amended "SyntaxError: Unexpected token"
      [NExpr.throwErr "kaboom"] (freshJSEngineState (fun _ => 0)) (freshJSEngineState (fun _ => 0))).2⟩

/-! ## C3: OpenSCAD cube centering -/

/-- C3: executing `cube([10,10,10], center=true);` through the
Transpiled-OpenSCAD engine.  The transpiler does generate the intended
half-size centering offset `[10/2, 10/2, 10/2]` as a second argument, but
`createCube` only declares a `size` parameter, so the offset is silently
dropped: the run succeeds with exactly one cube of size `[10,10,10]` whose
position is `[0,0,0]`, not the `[5,5,5]` the claim (and the spec) state. -/
theorem c3_cube_center_ignored :
    transpileStmt (ScadStmt.call (.cubeA (10 : ℚ) 10 10 (some true))) =
      .ok (.cube [.arr [.num 10, .num 10, .num 10],
                  .arr [.num (10 / 2), .num (10 / 2), .num (10 / 2)]]) ∧
    (scadExecute (ScadStmt.call (.cubeA (10 : ℚ) 10 10 (some true)))
      (freshOpenSCADEngineState (fun _ => 0))).1.success = true ∧
    (scadExecute (ScadStmt.call (.cubeA (10 : ℚ) 10 10 (some true)))
      (freshOpenSCADEngineState (fun _ => 0))).1.objects = some [.objRef 0] ∧
    (scadExecute (ScadStmt.call (.cubeA (10 : ℚ) 10 10 (some true)))
      (freshOpenSCADEngineState (fun _ => 0))).2.store.length = 1 ∧
    objGet (((scadExecute (ScadStmt.call (.cubeA (10 : ℚ) 10 10 (some true)))
      (freshOpenSCADEngineState (fun _ => 0))).2.store.getD 0 []) : CADObj ℚ) "size" =
      .arr [.num 10, .num 10, .num 10] ∧
    objGet (((scadExecute (ScadStmt.call (.cubeA (10 : ℚ) 10 10 (some true)))
      (freshOpenSCADEngineState (fun _ => 0))).2.store.getD 0 []) : CADObj ℚ) "position" =
      .arr [.num 0, .num 0, .num 0] ∧
    (.arr [.num 0, .num 0, .num 0] : JVal ℚ) ≠
      .arr [.num 5, .num 5, .num 5] := by
  refine ⟨rfl, rfl, rfl, rfl, rfl, rfl, ?_⟩
  intro h
  simp only [JVal.arr.injEq, List.cons.injEq, JVal.num.injEq] at h
  norm_num at h

/-! ## C4: flatten correctness -/

/-- Value `v` is a boolean-kind node of store `σ`. -/
def isBoolNode (σ : Store α) : JVal α → Bool
  | .objRef h => isBoolType (objGet (σ.getD h []) "type")
  | _ => false

theorem refFlattenOne_leaf (σ : Store α) (f : ℕ) (v : JVal α)
    (h : isBoolNode σ v = false) : refFlattenOne f σ v = [v] := by
  cases v <;> simp [refFlattenOne.eq_def]
  case objRef h' =>
    simp [isBoolNode] at h
    simp [h]

theorem refFlattenOne_bool_succ (σ : Store α) (f : ℕ) (h : ℕ)
    (hb : isBoolType (objGet (σ.getD h []) "type") = true) :
    refFlattenOne (f + 1) σ (.objRef h) =
      (asElems (objGet (σ.getD h []) "objects")).flatMap (refFlattenOne f σ) := by
  simp only [refFlattenOne.eq_def]
  rw [hb]
  simp

theorem refFlattenOne_bool_zero (σ : Store α) (h : ℕ)
    (hb : isBoolType (objGet (σ.getD h []) "type") = true) :
    refFlattenOne 0 σ (.objRef h) = [] := by
  simp only [refFlattenOne.eq_def]
  rw [hb]
  simp

theorem refFlatten_cons (f : ℕ) (σ : Store α) (v : JVal α) (rest : List (JVal α)) :
    refFlatten f σ (v :: rest) = refFlattenOne f σ v ++ refFlatten f σ rest := by
  simp [refFlatten]

theorem refFlattenOne_no_bool (σ : Store α) :
    ∀ f (v w : JVal α), w ∈ refFlattenOne f σ v → isBoolNode σ w = false := by
  intro f
  induction f with
  | zero =>
    intro v w hw
    cases v
    case objRef h =>
      by_cases hb : isBoolType (objGet (σ.getD h []) "type")
      · rw [refFlattenOne_bool_zero σ h hb] at hw
        cases hw
      · rw [refFlattenOne_leaf σ 0 _ (by simpa [isBoolNode] using hb)] at hw
        rcases List.mem_singleton.mp hw with rfl
        simpa [isBoolNode] using hb
    all_goals
      rw [refFlattenOne_leaf σ 0 _ (by simp [isBoolNode])] at hw
      rcases List.mem_singleton.mp hw with rfl
      simp [isBoolNode]
  | succ f ih =>
    intro v w hw
    cases v
    case objRef h =>
      by_cases hb : isBoolType (objGet (σ.getD h []) "type")
      · rw [refFlattenOne_bool_succ σ f h hb] at hw
        rcases List.mem_flatMap.mp hw with ⟨c, _, hc⟩
        exact ih c w hc
      · rw [refFlattenOne_leaf σ _ _ (by simpa [isBoolNode] using hb)] at hw
        rcases List.mem_singleton.mp hw with rfl
        simpa [isBoolNode] using hb
    all_goals
      rw [refFlattenOne_leaf σ _ _ (by simp [isBoolNode])] at hw
      rcases List.mem_singleton.mp hw with rfl
      simp [isBoolNode]

theorem refFlatten_no_bool (σ : Store α) (f : ℕ) (l : List (JVal α))
    (w : JVal α) (hw : w ∈ refFlatten f σ l) : isBoolNode σ w = false := by
  simp only [refFlatten, List.mem_flatMap] at hw
  obtain ⟨v, _, hv⟩ := hw
  exact refFlattenOne_no_bool σ f v w hv

theorem handlesLt_objGet (n : ℕ) (o : CADObj α) (k : String)
    (h : handlesLtObj n o = true) : handlesLt n (objGet o k) = true := by
  induction o with
  | nil => simp [objGet, handlesLt]
  | cons p rest ih =>
    obtain ⟨k₀, v₀⟩ := p
    simp only [handlesLtObj, List.map_cons, handlesLtList, Bool.and_eq_true] at h
    rw [objGet_cons]
    by_cases hk : k₀ = k
    · simpa [hk] using h.1
    · simpa [hk] using ih h.2

theorem handlesLt_mem_arr (n : ℕ) (l : List (JVal α)) (v : JVal α)
    (hv : v ∈ l) (h : handlesLt n (.arr l) = true) : handlesLt n v = true := by
  induction l with
  | nil => cases hv
  | cons x rest ih =>
    simp only [handlesLt, handlesLtList, Bool.and_eq_true] at h
    rcases List.mem_cons.mp hv with h1 | h2
    · subst h1; exact h.1
    · exact ih h2 (by simpa [handlesLt] using h.2)

theorem handlesLt_asElems (n : ℕ) (u : JVal α) (v : JVal α)
    (hv : v ∈ asElems u) (h : handlesLt n u = true) : handlesLt n v = true := by
  cases u <;> simp [asElems] at hv
  case arr l => exact handlesLt_mem_arr n l v hv h

/-- Fuel is irrelevant to `refFlattenOne` on an allocation-ordered store once
it exceeds a handle bound of the input: the expansion depth of a boolean
node is bounded by its handle, so the source recursion (which has no fuel)
terminates on such stores and our fuelled model computes its value. -/
theorem refFlattenOne_stable (σ : Store α) (hσ : decreasingStore σ) :
    ∀ n (v : JVal α), handlesLt n v = true → ∀ f₁ f₂, n ≤ f₁ → n ≤ f₂ →
      refFlattenOne f₁ σ v = refFlattenOne f₂ σ v := by
  intro n
  induction n using Nat.strong_induction_on with
  | _ n ih =>
    intro v hv f₁ f₂ hf₁ hf₂
    cases v
    case objRef h =>
      by_cases hb : isBoolType (objGet (σ.getD h []) "type")
      · have hlt : h < n := by simpa [handlesLt] using hv
        obtain ⟨f₁', rfl⟩ : ∃ k, f₁ = k + 1 := ⟨f₁ - 1, by omega⟩
        obtain ⟨f₂', rfl⟩ : ∃ k, f₂ = k + 1 := ⟨f₂ - 1, by omega⟩
        rw [refFlattenOne_bool_succ σ f₁' h hb, refFlattenOne_bool_succ σ f₂' h hb]
        have hh : h < σ.length := by
          by_contra hcon
          rw [List.getD_eq_getElem?_getD, List.getElem?_eq_none (by omega)] at hb
          simp [objGet, isBoolType] at hb
        refine List.flatMap_congr ?_
        intro c hc
        have hobj : handlesLtObj h σ[h] = true := hσ h hh
        have hget : handlesLt h (objGet (σ.getD h []) "objects") = true := by
          rw [List.getD_eq_getElem?_getD, List.getElem?_eq_getElem hh]
          exact handlesLt_objGet h σ[h] "objects" hobj
        have hcl : handlesLt h c = true := handlesLt_asElems h _ c hc hget
        exact ih h hlt c hcl f₁' f₂' (by omega) (by omega)
      · rw [refFlattenOne_leaf σ _ _ (by simpa [isBoolNode] using hb),
            refFlattenOne_leaf σ _ _ (by simpa [isBoolNode] using hb)]
    all_goals
      rw [refFlattenOne_leaf σ _ _ (by simp [isBoolNode]),
          refFlattenOne_leaf σ _ _ (by simp [isBoolNode])]

theorem refFlatten_stable (σ : Store α) (hσ : decreasingStore σ)
    (n : ℕ) (l : List (JVal α)) (hl : handlesLtList n l = true)
    (f₁ f₂ : ℕ) (hf₁ : n ≤ f₁) (hf₂ : n ≤ f₂) :
    refFlatten f₁ σ l = refFlatten f₂ σ l := by
  induction l with
  | nil => rfl
  | cons v rest ih =>
    simp only [handlesLtList, Bool.and_eq_true] at hl
    rw [refFlatten_cons, refFlatten_cons,
      refFlattenOne_stable σ hσ n v hl.1 f₁ f₂ hf₁ hf₂, ih hl.2]

theorem getD_append_two_fst (σ₀ : Store α) (x y : CADObj α) :
    (σ₀ ++ [x, y]).getD σ₀.length [] = x := by
  rw [List.getD_eq_getElem?_getD, List.getElem?_append_right (le_refl _)]
  simp

theorem getD_append_two_snd (σ₀ : Store α) (x y : CADObj α) :
    (σ₀ ++ [x, y]).getD (σ₀.length + 1) [] = y := by
  rw [List.getD_eq_getElem?_getD, List.getElem?_append_right (by omega)]
  simp

/-- C4: flatten correctness.  (1) For every store, fuel and input list, the
output of `flattenObjects` contains no boolean-kind node.  (2) For all
leaves `a b c d` (values that are not boolean nodes of the store, at any
nesting position) the store holding `difference([b,c])` and
`union([a, difference([b,c]), d])` built by the command-library
constructors flattens the union node to exactly `[a, b, c, d]`, depth-first
and left-to-right.  (3) On allocation-ordered stores (the only ones
evaluation produces) the result is fuel-independent from the store length
on: the source recursion, which has no fuel, is total there and never
throws; our model is total for every input by construction. -/
theorem c4_flatten_correctness :
    (∀ (σ : Store α) (f : ℕ) (l : List (JVal α)) (w : JVal α),
      w ∈ refFlatten f σ l → isBoolNode σ w = false) ∧
    (∀ (σ₀ : Store α) (a b c d : JVal α) (f : ℕ),
      isBoolNode (σ₀ ++ [differenceObj (.arr [b, c]),
        unionObj (.arr [a, .objRef σ₀.length, d])]) a = false →
      isBoolNode (σ₀ ++ [differenceObj (.arr [b, c]),
        unionObj (.arr [a, .objRef σ₀.length, d])]) b = false →
      isBoolNode (σ₀ ++ [differenceObj (.arr [b, c]),
        unionObj (.arr [a, .objRef σ₀.length, d])]) c = false →
      isBoolNode (σ₀ ++ [differenceObj (.arr [b, c]),
        unionObj (.arr [a, .objRef σ₀.length, d])]) d = false →
      refFlatten (f + 2) (σ₀ ++ [differenceObj (.arr [b, c]),
          unionObj (.arr [a, .objRef σ₀.length, d])])
        [.objRef (σ₀.length + 1)] = [a, b, c, d]) ∧
    (∀ σ : Store α, decreasingStore σ → ∀ l : List (JVal α),
      handlesLtList σ.length l = true → ∀ f₁ f₂ : ℕ,
      σ.length ≤ f₁ → σ.length ≤ f₂ →
      refFlatten f₁ σ l = refFlatten f₂ σ l) := by
  refine ⟨refFlatten_no_bool, ?_,
    fun σ hσ l hl f₁ f₂ h1 h2 => refFlatten_stable σ hσ σ.length l hl f₁ f₂ h1 h2⟩
  intro σ₀ a b c d f ha hb hc hd
  set D : CADObj α := differenceObj (.arr [b, c]) with hDeq
  set U : CADObj α := unionObj (.arr [a, .objRef σ₀.length, d]) with hUeq
  set σ : Store α := σ₀ ++ [D, U] with hσeq
  have hU : σ.getD (σ₀.length + 1) [] = U := getD_append_two_snd σ₀ D U
  have hD : σ.getD σ₀.length [] = D := getD_append_two_fst σ₀ D U
  have hUt : isBoolType (objGet (σ.getD (σ₀.length + 1) []) "type") = true := by
    rw [hU, hUeq]; rfl
  have hDt : isBoolType (objGet (σ.getD σ₀.length []) "type") = true := by
    rw [hD, hDeq]; rfl
  have step1 : refFlatten (f + 2) σ [.objRef (σ₀.length + 1)] =
      refFlattenOne (f + 2) σ (.objRef (σ₀.length + 1)) := by
    simp [refFlatten]
  rw [step1, refFlattenOne_bool_succ σ (f + 1) (σ₀.length + 1) hUt, hU, hUeq]
  have hElems : asElems (objGet (unionObj (.arr [a, .objRef σ₀.length, d]))
      "objects") = [a, .objRef σ₀.length, d] := rfl
  rw [hElems]
  simp only [List.flatMap_cons, List.flatMap_nil, List.append_nil]
  rw [refFlattenOne_leaf σ (f + 1) a ha,
    refFlattenOne_bool_succ σ f σ₀.length hDt, hD, hDeq,
    refFlattenOne_leaf σ (f + 1) d hd]
  have hElems2 : asElems (objGet (differenceObj (.arr [b, c])) "objects") =
      [b, c] := rfl
  rw [hElems2]
  simp only [List.flatMap_cons, List.flatMap_nil, List.append_nil]
  rw [refFlattenOne_leaf σ f b hb, refFlattenOne_leaf σ f c hc]
  rfl

/-- Witness for C4: the flatten of a concrete two-level boolean nest over
four concrete leaf objects yields the four leaves in order; the concrete
store is allocation-ordered and flatten is fuel-stable on it. -/
theorem c4_flatten_correctness_witness :
    refFlatten 2 ([createCube [], createSphere [],
        differenceObj (.arr [.objRef 0, .objRef 1]),
        unionObj (.arr [.num (7 : ℚ), .objRef 2, .str "x"])] : Store ℚ)
      [.objRef 3] = [.num 7, .objRef 0, .objRef 1, .str "x"] ∧
    refFlatten 9 ([createCube [], createSphere [],
        differenceObj (.arr [.objRef 0, .objRef 1]),
        unionObj (.arr [.num (7 : ℚ), .objRef 2, .str "x"])] : Store ℚ)
      [.objRef 3] =
    refFlatten 4 ([createCube [], createSphere [],
        differenceObj (.arr [.objRef 0, .objRef 1]),
        unionObj (.arr [.num (7 : ℚ), .objRef 2, .str "x"])] : Store ℚ)
      [.objRef 3] := by
  constructor
  · exact (c4_flatten_correctness.2.1 [createCube [], createSphere []]
      (.num 7) (.objRef 0) (.objRef 1) (.str "x") 0
      (by rfl) (by rfl) (by rfl) (by rfl))
  · exact (c4_flatten_correctness.2.2 _
      (by intro i hi
          match i, hi with
          | 0, _ => rfl
          | 1, _ => rfl
          | 2, _ => rfl
          | 3, _ => rfl)
      [.objRef 3] (by rfl) 9 4 (by simp) (by simp))

/-! ## C5: transform composition -/

theorem jsOr_num_one (x : α) (hx : x ≠ 0) : jsOr (.num x) (.num 1) = .num x := by
  simp [jsOr, truthy, hx]

theorem truthy_undefined : truthy (.undefined : JVal α) = false := rfl

theorem truthy_arr (l : List (JVal α)) : truthy (.arr l) = true := rfl

theorem truthy_objRef (h : ℕ) : truthy (.objRef h : JVal α) = true := rfl

theorem truthy_str_type (s : String) (hs : s ≠ "") :
    truthy (.str s : JVal α) = true := by simp [truthy, hs]

theorem objSet_objSet_self (o : CADObj α) (k : String) (v w : JVal α) :
    objSet (objSet o k v) k w = objSet o k w := by
  induction o with
  | nil => simp [objSet]
  | cons p rest ih =>
    obtain ⟨k₀, v₀⟩ := p
    by_cases hk : k₀ = k
    · simp [objSet, hk]
    · simp [objSet, hk, ih]

theorem scaleObj_fresh (o : CADObj α) (x y z : α) (h : objGet o "scale" = .undefined)
    (hx : x ≠ 0) (hy : y ≠ 0) (hz : z ≠ 0) :
    scaleObj o (.arr [.num x, .num y, .num z]) =
      objSet o "scale" (.arr [.num (1 * x), .num (1 * y), .num (1 * z)]) := by
  simp [scaleObj, h, truthy_undefined, objGet_objSet_self, objSet_objSet_self,
    getIdx, setIdx, arrSet, jsMul, jsOr_num_self_one,
    jsOr_num_one x hx, jsOr_num_one y hy, jsOr_num_one z hz]

theorem rotateObj_zeros (o : CADObj α) (x y z : α)
    (h : objGet o "rotation" = .arr [.num 0, .num 0, .num 0]) :
    rotateObj o (.arr [.num x, .num y, .num z]) =
      objSet o "rotation" (.arr [.num (0 + x), .num (0 + y), .num (0 + z)]) := by
  simp [rotateObj, h, truthy_arr, objGet_objSet_self, objSet_objSet_self,
    getIdx, setIdx, arrSet, jsAdd, jsOr_num_zero]

theorem translateObj_zeros (o : CADObj α) (x y z : α)
    (h : objGet o "position" = .arr [.num 0, .num 0, .num 0]) :
    translateObj o (.arr [.num x, .num y, .num z]) =
      objSet o "position" (.arr [.num (0 + x), .num (0 + y), .num (0 + z)]) := by
  simp [translateObj, h, truthy_arr, objGet_objSet_self, objSet_objSet_self,
    getIdx, setIdx, arrSet, jsAdd, jsOr_num_zero]

/-- C5: evaluating
`translate(rotate(scale(cube([1,1,1]), [2,2,2]), [0,0,Math.PI/2]), [1,0,0])`
in the JavaScript engine sandbox allocates exactly one object — the cube —
and threads the very same reference (`objRef 0`, the reference returned by
the inner `cube` call alone) through all three transform calls, each of
which mutates the stored object in place: the final object carries
`scale = [2,2,2]` (initialized on first touch, then multiplied),
`rotation = [0,0,π/2]` and `position = [1,0,0]`, applied in call-nesting
order. -/
theorem c5_transform_composition (ρ : ℕ → ℝ) :
    evalExpr EngineKind.js
      (.translate
        (.rotate
          (.scale (.cube [Lit.arr [.num 1, .num 1, .num 1]])
            (.lit (.arr [.num 2, .num 2, .num 2])))
          (.lit (.arr [.num 0, .num 0, .num (Real.pi / 2)])))
        (.lit (.arr [.num 1, .num 0, .num 0])))
      ⟨[], some [], ρ⟩ =
      (.ok (.objRef 0),
       ⟨[[("type", .str "cube"),
          ("size", .arr [.num 1, .num 1, .num 1]),
          ("position", .arr [.num 1, .num 0, .num 0]),
          ("rotation", .arr [.num 0, .num 0, .num (Real.pi / 2)]),
          ("color", .str DEFAULT_GEOMETRY_COLORS_CUBE),
          ("transparent", .bool false),
          ("opacity", .num 1),
          ("scale", .arr [.num 2, .num 2, .num 2])]],
        some [.objRef 0], ρ⟩) ∧
    evalExpr EngineKind.js (.cube [Lit.arr [.num 1, .num 1, .num 1]])
      ⟨([] : Store ℝ), some [], ρ⟩ =
      (.ok (.objRef 0),
       ⟨[createCube [.arr [.num 1, .num 1, .num 1]]], some [.objRef 0], ρ⟩) := by
  constructor
  · have hskel : evalExpr EngineKind.js
        (.translate
          (.rotate
            (.scale (.cube [Lit.arr [.num 1, .num 1, .num 1]])
              (.lit (.arr [.num 2, .num 2, .num 2])))
            (.lit (.arr [.num 0, .num 0, .num (Real.pi / 2)])))
          (.lit (.arr [.num 1, .num 0, .num 0])))
        (⟨[], some [], ρ⟩ : EvalSt ℝ) =
        (.ok (.objRef 0),
         ⟨[translateObj (rotateObj (scaleObj
              (createCube [.arr [.num 1, .num 1, .num 1]])
              (.arr [.num 2, .num 2, .num 2]))
              (.arr [.num 0, .num 0, .num (Real.pi / 2)]))
              (.arr [.num 1, .num 0, .num 0])],
          some [.objRef 0], ρ⟩) := rfl
    rw [hskel]
    have h1 : scaleObj (createCube (α := ℝ) [.arr [.num 1, .num 1, .num 1]])
        (.arr [.num 2, .num 2, .num 2]) =
        objSet (createCube [.arr [.num 1, .num 1, .num 1]]) "scale"
          (.arr [.num 2, .num 2, .num 2]) := by
      rw [scaleObj_fresh (createCube [.arr [.num 1, .num 1, .num 1]]) 2 2 2
        (by rfl) two_ne_zero two_ne_zero two_ne_zero]
      norm_num
    rw [h1]
    have h2 : rotateObj (objSet (createCube (α := ℝ)
          [.arr [.num 1, .num 1, .num 1]]) "scale"
          (.arr [.num 2, .num 2, .num 2]))
        (.arr [.num 0, .num 0, .num (Real.pi / 2)]) =
        objSet (objSet (createCube [.arr [.num 1, .num 1, .num 1]]) "scale"
          (.arr [.num 2, .num 2, .num 2])) "rotation"
          (.arr [.num 0, .num 0, .num (0 + Real.pi / 2)]) := by
      rw [rotateObj_zeros _ 0 0 (Real.pi / 2)
        (by rw [objGet_objSet_ne _ _ _ _ (by decide)]; rfl)]
      norm_num
    rw [h2]
    have h3 : translateObj (objSet (objSet (createCube (α := ℝ)
          [.arr [.num 1, .num 1, .num 1]]) "scale"
          (.arr [.num 2, .num 2, .num 2])) "rotation"
          (.arr [.num 0, .num 0, .num (0 + Real.pi / 2)]))
        (.arr [.num 1, .num 0, .num 0]) =
        objSet (objSet (objSet (createCube [.arr [.num 1, .num 1, .num 1]])
          "scale" (.arr [.num 2, .num 2, .num 2])) "rotation"
          (.arr [.num 0, .num 0, .num (0 + Real.pi / 2)])) "position"
          (.arr [.num (0 + 1), .num (0 + 0), .num (0 + 0)]) := by
      rw [translateObj_zeros _ 1 0 0
        (by rw [objGet_objSet_ne _ _ _ _ (by decide),
                objGet_objSet_ne _ _ _ _ (by decide)]; rfl)]
    rw [h3]
    norm_num
    rfl
  · rfl

/-! ## C9: the OpenSCAD engine and its uninitialized accumulator -/

mutual

/-- An expression invokes at least one of the sandbox commands that are
overridden (in `OpenSCADEngine`) to push onto `generatedGeometry`: the 2D
shapes, the extrusions and the 2D operations.  `cube`/`sphere`/`cylinder`
are not overridden there and never touch the accumulator. -/
def uses2DCommand : NExpr α → Bool
  | .rectangle _ => true
  | .circle _ => true
  | .polygon _ => true
  | .arc _ => true
  | .line _ => true
  | .linear_extrude _ _ => true
  | .rotate_extrude _ _ => true
  | .offset _ _ => true
  | .fillet _ _ => true
  | .chamfer _ _ => true
  | .cube _ => false
  | .sphere _ => false
  | .cylinder _ => false
  | .translate o v => uses2DCommand o || uses2DCommand v
  | .rotate o v => uses2DCommand o || uses2DCommand v
  | .scale o v => uses2DCommand o || uses2DCommand v
  | .union l => uses2DCommandList l
  | .difference l => uses2DCommandList l
  | .intersection l => uses2DCommandList l
  | .lit _ => false
  | .arrExpr l => uses2DCommandList l
  | .mathRandom => false
  | .throwErr _ => false
  | .undefinedRef _ => false

/-- List version of `uses2DCommand`. -/
def uses2DCommandList : List (NExpr α) → Bool
  | [] => false
  | e :: rest => uses2DCommand e || uses2DCommandList rest

end

theorem applyTransform_acc (tf : CADObj α → JVal α → CADObj α)
    (v a : JVal α) (st : EvalSt α) :
    (applyTransform tf v a st).2.acc = st.acc := by
  unfold applyTransform
  split
  · rfl
  · cases v with
    | objRef h => cases hv : st.store[h]? <;> simp [hv]
    | arr l => rfl
    | num x => rfl
    | str s => rfl
    | bool b => rfl
    | undefined => rfl

theorem allocPush_acc_none (p : Bool) (o : CADObj α) (st : EvalSt α)
    (h : st.acc = none) : (allocPush p o st).2.acc = none := by
  cases p <;> simp [allocPush, h]

theorem allocPush_true_none_error (o : CADObj α) (st : EvalSt α)
    (h : st.acc = none) : ∃ m, (allocPush true o st).1 = .error m := by
  simp [allocPush, h]

mutual

/-- Evaluation in the OpenSCAD sandbox from a state whose accumulator was
never initialized keeps it uninitialized, and any invocation of a pushing
command raises (the `TypeError` from `undefined.push`, or an earlier
exception). -/
theorem scadEval2D (e : NExpr α) (st : EvalSt α) (h : st.acc = none) :
    ((evalExpr .openscad e st).2.acc = none ∧
     (uses2DCommand e = true →
       ∃ m, (evalExpr .openscad e st).1 = .error m)) := by
  cases e with
  | cube args => simp [evalExpr, allocPush, pushes3D, uses2DCommand, h]
  | sphere args => simp [evalExpr, allocPush, pushes3D, uses2DCommand, h]
  | cylinder args => simp [evalExpr, allocPush, pushes3D, uses2DCommand, h]
  | rectangle args => simp [evalExpr, allocPush, uses2DCommand, h]
  | circle args => simp [evalExpr, allocPush, uses2DCommand, h]
  | polygon args => simp [evalExpr, allocPush, uses2DCommand, h]
  | arc args => simp [evalExpr, allocPush, uses2DCommand, h]
  | line args => simp [evalExpr, allocPush, uses2DCommand, h]
  | linear_extrude shape args =>
    have ih := scadEval2D shape st h
    simp only [evalExpr, uses2DCommand]
    split
    next m st₁ heq =>
      rw [heq] at ih
      exact ⟨ih.1, fun _ => ⟨m, rfl⟩⟩
    next v st₁ heq =>
      rw [heq] at ih
      exact ⟨allocPush_acc_none true _ st₁ ih.1,
        fun _ => allocPush_true_none_error _ st₁ ih.1⟩
  | rotate_extrude shape args =>
    have ih := scadEval2D shape st h
    simp only [evalExpr, uses2DCommand]
    split
    next m st₁ heq =>
      rw [heq] at ih
      exact ⟨ih.1, fun _ => ⟨m, rfl⟩⟩
    next v st₁ heq =>
      rw [heq] at ih
      exact ⟨allocPush_acc_none true _ st₁ ih.1,
        fun _ => allocPush_true_none_error _ st₁ ih.1⟩
  | offset shape args =>
    have ih := scadEval2D shape st h
    simp only [evalExpr, uses2DCommand]
    split
    next m st₁ heq =>
      rw [heq] at ih
      exact ⟨ih.1, fun _ => ⟨m, rfl⟩⟩
    next v st₁ heq =>
      rw [heq] at ih
      exact ⟨allocPush_acc_none true _ st₁ ih.1,
        fun _ => allocPush_true_none_error _ st₁ ih.1⟩
  | fillet shape args =>
    have ih := scadEval2D shape st h
    simp only [evalExpr, uses2DCommand]
    split
    next m st₁ heq =>
      rw [heq] at ih
      exact ⟨ih.1, fun _ => ⟨m, rfl⟩⟩
    next v st₁ heq =>
      rw [heq] at ih
      exact ⟨allocPush_acc_none true _ st₁ ih.1,
        fun _ => allocPush_true_none_error _ st₁ ih.1⟩
  | chamfer shape args =>
    have ih := scadEval2D shape st h
    simp only [evalExpr, uses2DCommand]
    split
    next m st₁ heq =>
      rw [heq] at ih
      exact ⟨ih.1, fun _ => ⟨m, rfl⟩⟩
    next v st₁ heq =>
      rw [heq] at ih
      exact ⟨allocPush_acc_none true _ st₁ ih.1,
        fun _ => allocPush_true_none_error _ st₁ ih.1⟩
  | translate o v =>
    have iho := scadEval2D o st h
    simp only [evalExpr, uses2DCommand]
    split
    next m st₁ heq =>
      rw [heq] at iho
      exact ⟨iho.1, fun _ => ⟨m, rfl⟩⟩
    next w st₁ heq =>
      rw [heq] at iho
      have ihv := scadEval2D v st₁ iho.1
      split
      next mv st₂ heqv =>
        rw [heqv] at ihv
        exact ⟨ihv.1, fun _ => ⟨mv, rfl⟩⟩
      next wv st₂ heqv =>
        rw [heqv] at ihv
        refine ⟨by rw [applyTransform_acc]; exact ihv.1, fun hu => ?_⟩
        rcases (Bool.or_eq_true _ _).mp hu with hu | hu
        · rcases iho.2 hu with ⟨m, hm⟩
          cases hm
        · rcases ihv.2 hu with ⟨m, hm⟩
          cases hm
  | rotate o v =>
    have iho := scadEval2D o st h
    simp only [evalExpr, uses2DCommand]
    split
    next m st₁ heq =>
      rw [heq] at iho
      exact ⟨iho.1, fun _ => ⟨m, rfl⟩⟩
    next w st₁ heq =>
      rw [heq] at iho
      have ihv := scadEval2D v st₁ iho.1
      split
      next mv st₂ heqv =>
        rw [heqv] at ihv
        exact ⟨ihv.1, fun _ => ⟨mv, rfl⟩⟩
      next wv st₂ heqv =>
        rw [heqv] at ihv
        refine ⟨by rw [applyTransform_acc]; exact ihv.1, fun hu => ?_⟩
        rcases (Bool.or_eq_true _ _).mp hu with hu | hu
        · rcases iho.2 hu with ⟨m, hm⟩
          cases hm
        · rcases ihv.2 hu with ⟨m, hm⟩
          cases hm
  | scale o v =>
    have iho := scadEval2D o st h
    simp only [evalExpr, uses2DCommand]
    split
    next m st₁ heq =>
      rw [heq] at iho
      exact ⟨iho.1, fun _ => ⟨m, rfl⟩⟩
    next w st₁ heq =>
      rw [heq] at iho
      have ihv := scadEval2D v st₁ iho.1
      split
      next mv st₂ heqv =>
        rw [heqv] at ihv
        exact ⟨ihv.1, fun _ => ⟨mv, rfl⟩⟩
      next wv st₂ heqv =>
        rw [heqv] at ihv
        refine ⟨by rw [applyTransform_acc]; exact ihv.1, fun hu => ?_⟩
        rcases (Bool.or_eq_true _ _).mp hu with hu | hu
        · rcases iho.2 hu with ⟨m, hm⟩
          cases hm
        · rcases ihv.2 hu with ⟨m, hm⟩
          cases hm
  | union l =>
    have ih := scadEvalList2D l st h
    simp only [evalExpr, uses2DCommand]
    split
    next m st₁ heq =>
      rw [heq] at ih
      exact ⟨ih.1, fun _ => ⟨m, rfl⟩⟩
    next vs st₁ heq =>
      rw [heq] at ih
      refine ⟨allocPush_acc_none false _ st₁ ih.1, fun hu => ?_⟩
      rcases ih.2 hu with ⟨m, hm⟩
      cases hm
  | difference l =>
    have ih := scadEvalList2D l st h
    simp only [evalExpr, uses2DCommand]
    split
    next m st₁ heq =>
      rw [heq] at ih
      exact ⟨ih.1, fun _ => ⟨m, rfl⟩⟩
    next vs st₁ heq =>
      rw [heq] at ih
      refine ⟨allocPush_acc_none false _ st₁ ih.1, fun hu => ?_⟩
      rcases ih.2 hu with ⟨m, hm⟩
      cases hm
  | intersection l =>
    have ih := scadEvalList2D l st h
    simp only [evalExpr, uses2DCommand]
    split
    next m st₁ heq =>
      rw [heq] at ih
      exact ⟨ih.1, fun _ => ⟨m, rfl⟩⟩
    next vs st₁ heq =>
      rw [heq] at ih
      refine ⟨allocPush_acc_none false _ st₁ ih.1, fun hu => ?_⟩
      rcases ih.2 hu with ⟨m, hm⟩
      cases hm
  | lit v => simpa [evalExpr, uses2DCommand] using h
  | arrExpr l =>
    have ih := scadEvalList2D l st h
    simp only [evalExpr, uses2DCommand]
    split
    next m st₁ heq =>
      rw [heq] at ih
      exact ⟨ih.1, fun _ => ⟨m, rfl⟩⟩
    next vs st₁ heq =>
      rw [heq] at ih
      refine ⟨ih.1, fun hu => ?_⟩
      rcases ih.2 hu with ⟨m, hm⟩
      cases hm
  | mathRandom => simpa [evalExpr, uses2DCommand] using h
  | throwErr msg => simpa [evalExpr, uses2DCommand] using h
  | undefinedRef name => simpa [evalExpr, uses2DCommand] using h

/-- List version of `scadEval2D`. -/
theorem scadEvalList2D (l : List (NExpr α)) (st : EvalSt α) (h : st.acc = none) :
    ((evalExprList .openscad l st).2.acc = none ∧
     (uses2DCommandList l = true →
       ∃ m, (evalExprList .openscad l st).1 = .error m)) := by
  cases l with
  | nil => simpa [evalExprList, uses2DCommandList] using h
  | cons e rest =>
    have ihe := scadEval2D e st h
    simp only [evalExprList, uses2DCommandList]
    split
    next m st₁ heq =>
      rw [heq] at ihe
      exact ⟨ihe.1, fun _ => ⟨m, rfl⟩⟩
    next v st₁ heq =>
      rw [heq] at ihe
      have ihr := scadEvalList2D rest st₁ ihe.1
      split
      next mr st₂ heqr =>
        rw [heqr] at ihr
        exact ⟨ihr.1, fun _ => ⟨mr, rfl⟩⟩
      next vs st₂ heqr =>
        rw [heqr] at ihr
        refine ⟨ihr.1, fun hu => ?_⟩
        rcases (Bool.or_eq_true _ _).mp hu with hu | hu
        · rcases ihe.2 hu with ⟨m, hm⟩
          cases hm
        · rcases ihr.2 hu with ⟨m, hm⟩
          cases hm

end

/-- A single OpenSCAD call invokes one of the commands whose sandbox entry
pushes onto the (never initialized) accumulator. -/
def scadCallUses2D : ScadCall α → Bool
  | .circleCall _ => true
  | .squareCall _ => true
  | .rectangleCall _ => true
  | .polygonCall _ => true
  | .arcCall _ => true
  | .lineCall _ => true
  | .linearExtrudeCall _ _ => true
  | .rotateExtrudeCall _ _ => true
  | .offsetCall _ _ => true
  | .filletCall _ _ => true
  | .chamferCall _ _ => true
  | .cubeA _ _ _ _ => false
  | .cubeS _ _ => false
  | .sphereCall _ _ => false
  | .cylinderCall _ _ _ => false

/-- An OpenSCAD statement invokes a pushing command somewhere. -/
def scadStmtUses2D : ScadStmt α → Bool
  | .call c => scadCallUses2D c
  | .translateBlock _ _ _ body _ => scadCallUses2D body
  | .rotateBlock _ _ _ body _ => scadCallUses2D body
  | .scaleBlock _ _ _ body _ => scadCallUses2D body
  | .boolBlock _ body _ => body.any scadCallUses2D

theorem transpileCall_uses2D (c : ScadCall α) :
    uses2DCommand (transpileCall c) = scadCallUses2D c := by
  cases c <;> rfl

theorem transpileCall_uses2D_list (l : List (ScadCall α)) :
    uses2DCommandList (l.map transpileCall) = l.any scadCallUses2D := by
  induction l with
  | nil => rfl
  | cons c rest ih =>
    simp [uses2DCommandList, transpileCall_uses2D, ih]

theorem transpileStmt_uses2D (s : ScadStmt α) (e : NExpr α)
    (ht : transpileStmt s = .ok e) (hu : scadStmtUses2D s = true) :
    uses2DCommand e = true := by
  cases s with
  | call c =>
    simp only [transpileStmt, Except.ok.injEq] at ht
    subst ht
    rwa [transpileCall_uses2D]
  | translateBlock x y z body semi =>
    simp only [transpileStmt] at ht
    by_cases hs : semi
    · simp [hs] at ht
    · rw [if_neg hs] at ht
      simp only [Except.ok.injEq] at ht
      subst ht
      simp only [uses2DCommand, Bool.or_eq_true]
      right
      rwa [transpileCall_uses2D]
  | rotateBlock x y z body semi =>
    simp only [transpileStmt] at ht
    by_cases hs : semi
    · simp [hs] at ht
    · rw [if_neg hs] at ht
      simp only [Except.ok.injEq] at ht
      subst ht
      simp only [uses2DCommand, Bool.or_eq_true]
      right
      rwa [transpileCall_uses2D]
  | scaleBlock x y z body semi =>
    simp only [transpileStmt] at ht
    by_cases hs : semi
    · simp [hs] at ht
    · rw [if_neg hs] at ht
      simp only [Except.ok.injEq] at ht
      subst ht
      simp only [uses2DCommand, Bool.or_eq_true]
      right
      rwa [transpileCall_uses2D]
  | boolBlock k body lastSemi =>
    simp only [transpileStmt] at ht
    by_cases hs : lastSemi
    · simp [hs] at ht
    · rw [if_neg hs] at ht
      simp only [Except.ok.injEq] at ht
      subst ht
      cases k <;>
        simpa only [uses2DCommand, transpileCall_uses2D_list, scadStmtUses2D]
          using hu

/-- C9: the Transpiled-OpenSCAD engine never initializes its
`generatedGeometry` accumulator (its constructor does not set the field and
`BaseEngine` has none), so every OpenSCAD statement that invokes a 2D
shape, extrusion or 2D-operation command — whose sandbox entries are
overridden to push into the accumulator — makes `execute` return
`{success: false, error: …}`: the push into `undefined` throws a
`TypeError` (or the transpiled text already fails to parse), and the fault
is caught at the `execute` boundary and converted by `createError`.  Only
`cube`/`sphere`/`cylinder`, the transforms and the boolean wrappers avoid
the accumulator. -/
theorem c9_openscad_accumulator_unusable (s : ScadStmt α)
    (eng : EngineState α) (hg : eng.generatedGeometry = none)
    (hu : scadStmtUses2D s = true) :
    (scadExecute s eng).1.success = false ∧
    (scadExecute s eng).1.error.isSome = true := by
  unfold scadExecute
  cases ht : transpileStmt s with
  | error msg => simp [createError]
  | ok e =>
    have hue : uses2DCommand e = true := transpileStmt_uses2D s e ht hu
    have hev := scadEval2D e ⟨[], eng.generatedGeometry, eng.rng⟩ (by simpa using hg)
    rcases hev.2 hue with ⟨m, hm⟩
    cases hvv : evalExpr .openscad e ⟨[], eng.generatedGeometry, eng.rng⟩ with
    | mk r st₁ =>
      rw [hvv] at hm
      cases r with
      | error m₂ => simp [hvv, createError]
      | ok v => cases hm

/-- Witness for C9: executing `circle(5);` through a freshly constructed
OpenSCAD engine fails with the push `TypeError`. -/
theorem c9_openscad_accumulator_unusable_witness :
    (scadExecute (ScadStmt.call (.circleCall [Lit.num (5 : ℚ)]))
      (freshOpenSCADEngineState (fun _ => 0))).1.success = false ∧
    (scadExecute (ScadStmt.call (.circleCall [Lit.num (5 : ℚ)]))
      (freshOpenSCADEngineState (fun _ => 0))).1.error.isSome = true :=
  c9_openscad_accumulator_unusable
    (ScadStmt.call (.circleCall [Lit.num (5 : ℚ)]))
    (freshOpenSCADEngineState (fun _ => 0)) rfl rfl

/-! ## C2: what the JavaScript engine returns on normal completion -/

theorem getD_append_lt (σ : Store α) (l : Store α) (h : ℕ)
    (hh : h < σ.length) : (σ ++ l).getD h [] = σ.getD h [] := by
  rw [List.getD_eq_getElem?_getD, List.getD_eq_getElem?_getD,
    List.getElem?_append_left hh]

theorem getD_append_self (σ : Store α) (o : CADObj α) :
    (σ ++ [o]).getD σ.length [] = o := by
  rw [List.getD_eq_getElem?_getD, List.getElem?_append_right (le_refl _)]
  simp

/-- The accumulator only ever holds references to in-range, non-boolean
objects. -/
def accElemOK (σ : Store α) (v : JVal α) : Prop :=
  ∃ h, v = .objRef h ∧ h < σ.length ∧
    isBoolType (objGet (σ.getD h []) "type") = false

/-- Evaluation-step relation between states: the store only grows, the
`type` of every pre-existing object is preserved, and accumulator sanity
(`accElemOK` for every element) is preserved. -/
def evolves (st st' : EvalSt α) : Prop :=
  st.store.length ≤ st'.store.length ∧
  (∀ h, h < st.store.length →
    objGet (st'.store.getD h []) "type" = objGet (st.store.getD h []) "type") ∧
  (∀ l, st.acc = some l → (∀ v ∈ l, accElemOK st.store v) →
    ∃ l', st'.acc = some l' ∧ ∀ v ∈ l', accElemOK st'.store v)

theorem accElemOK_mono (st st' : EvalSt α)
    (hlen : st.store.length ≤ st'.store.length)
    (htp : ∀ h, h < st.store.length →
      objGet (st'.store.getD h []) "type" = objGet (st.store.getD h []) "type")
    (v : JVal α) (hv : accElemOK st.store v) : accElemOK st'.store v := by
  obtain ⟨h, rfl, hh, ht⟩ := hv
  exact ⟨h, rfl, lt_of_lt_of_le hh hlen, by rw [htp h hh]; exact ht⟩

theorem evolves_refl (st : EvalSt α) : evolves st st :=
  ⟨le_refl _, fun _ _ => rfl, fun l hl hOK => ⟨l, hl, hOK⟩⟩

theorem evolves_trans (st₁ st₂ st₃ : EvalSt α)
    (h₁ : evolves st₁ st₂) (h₂ : evolves st₂ st₃) : evolves st₁ st₃ := by
  obtain ⟨l₁, t₁, a₁⟩ := h₁
  obtain ⟨l₂, t₂, a₂⟩ := h₂
  refine ⟨le_trans l₁ l₂, fun h hh => ?_, fun l hl hOK => ?_⟩
  · rw [t₂ h (lt_of_lt_of_le hh l₁), t₁ h hh]
  · obtain ⟨l', hl', hOK'⟩ := a₁ l hl hOK
    exact a₂ l' hl' hOK'

theorem allocPush_evolves (p : Bool) (o : CADObj α) (st : EvalSt α)
    (ht : p = true → isBoolType (objGet o "type") = false) :
    evolves st (allocPush p o st).2 := by
  have hst : (allocPush p o st).2.store = st.store ++ [o] := by
    cases p
    · simp [allocPush]
    · cases hacc : st.acc <;> simp [allocPush, hacc]
  refine ⟨by rw [hst]; simp, fun h hh => by rw [hst, getD_append_lt _ _ h hh],
    fun l hl hOK => ?_⟩
  have hmono : ∀ v ∈ l, accElemOK (st.store ++ [o]) v := by
    intro v hv
    refine accElemOK_mono st ⟨st.store ++ [o], st.acc, st.rng⟩ (by simp)
      (fun h hh => by rw [getD_append_lt _ _ h hh]) v (hOK v hv)
  cases p with
  | false =>
    refine ⟨l, ?_, ?_⟩
    · simp [allocPush, hl]
    · intro v hv
      rw [hst]
      exact hmono v hv
  | true =>
    refine ⟨l ++ [.objRef st.store.length], ?_, ?_⟩
    · simp [allocPush, hl]
    · intro v hv
      rw [hst]
      rcases List.mem_append.mp hv with hv | hv
      · exact hmono v hv
      · rcases List.mem_singleton.mp hv with rfl
        exact ⟨st.store.length, rfl, by simp, by rw [getD_append_self]; exact ht rfl⟩

theorem applyTransform_evolves (tf : CADObj α → JVal α → CADObj α)
    (v a : JVal α) (st : EvalSt α)
    (htf : ∀ o, objGet (tf o a) "type" = objGet o "type") :
    evolves st (applyTransform tf v a st).2 := by
  unfold applyTransform
  split
  · exact evolves_refl st
  · cases v with
    | objRef h =>
      cases hv : st.store[h]? with
      | none =>
        simp only [hv]
        exact evolves_refl st
      | some o =>
        simp only [hv]
        have hh : h < st.store.length := (List.getElem?_eq_some_iff.mp hv).1
        have hv' : st.store[h] = o := by
          have := List.getElem?_eq_getElem hh
          rw [hv] at this
          exact (Option.some.injEq _ _ ▸ this.symm)
        refine ⟨by simp, fun h' hh' => ?_, fun l hl hOK => ?_⟩
        · by_cases he : h' = h
          · subst he
            rw [List.getD_eq_getElem?_getD, List.getElem?_set_self,
              List.getD_eq_getElem?_getD, List.getElem?_eq_getElem hh']
            simp only [Option.getD_some, hv']
            · exact htf o
            · exact hh'
          · rw [List.getD_eq_getElem?_getD, List.getElem?_set_ne (by omega),
              ← List.getD_eq_getElem?_getD]
        · refine ⟨l, hl, fun w hw => ?_⟩
          obtain ⟨hw', rfl, hwh, hwt⟩ := hOK w hw
          refine ⟨hw', rfl, by simpa using hwh, ?_⟩
          by_cases he : hw' = h
          · subst he
            rw [List.getD_eq_getElem?_getD, List.getElem?_set_self hwh]
            simp only [Option.getD_some]
            rw [htf o, ← hv']
            rw [List.getD_eq_getElem?_getD, List.getElem?_eq_getElem hwh] at hwt
            simpa using hwt
          · rwa [List.getD_eq_getElem?_getD, List.getElem?_set_ne (by omega),
              ← List.getD_eq_getElem?_getD]
    | arr l => exact evolves_refl st
    | num x => exact evolves_refl st
    | str s => exact evolves_refl st
    | bool b => exact evolves_refl st
    | undefined => exact evolves_refl st

theorem translateObj_type (o : CADObj α) (a : JVal α) :
    objGet (translateObj o a) "type" = objGet o "type" := by
  unfold translateObj
  rw [objGet_objSet_ne _ _ _ _ (by decide), objGet_objSet_ne _ _ _ _ (by decide),
    objGet_objSet_ne _ _ _ _ (by decide)]
  split
  · rfl
  · rw [objGet_objSet_ne _ _ _ _ (by decide)]

theorem rotateObj_type (o : CADObj α) (a : JVal α) :
    objGet (rotateObj o a) "type" = objGet o "type" := by
  unfold rotateObj
  rw [objGet_objSet_ne _ _ _ _ (by decide), objGet_objSet_ne _ _ _ _ (by decide),
    objGet_objSet_ne _ _ _ _ (by decide)]
  split
  · rfl
  · rw [objGet_objSet_ne _ _ _ _ (by decide)]

theorem scaleObj_type (o : CADObj α) (a : JVal α) :
    objGet (scaleObj o a) "type" = objGet o "type" := by
  unfold scaleObj
  rw [objGet_objSet_ne _ _ _ _ (by decide), objGet_objSet_ne _ _ _ _ (by decide),
    objGet_objSet_ne _ _ _ _ (by decide)]
  split
  · rfl
  · rw [objGet_objSet_ne _ _ _ _ (by decide)]

mutual

/-- Every JavaScript-engine evaluation step `evolves` the state: the store
grows, object kinds are stable, and the accumulator keeps holding only
references to non-boolean objects (boolean nodes are allocated but never
pushed). -/
theorem jsEvolves (e : NExpr α) (st : EvalSt α) :
    evolves st (evalExpr .js e st).2 := by
  cases e with
  | cube args => exact allocPush_evolves _ _ st (fun _ => rfl)
  | sphere args => exact allocPush_evolves _ _ st (fun _ => rfl)
  | cylinder args => exact allocPush_evolves _ _ st (fun _ => rfl)
  | rectangle args => exact allocPush_evolves _ _ st (fun _ => rfl)
  | circle args => exact allocPush_evolves _ _ st (fun _ => rfl)
  | polygon args => exact allocPush_evolves _ _ st (fun _ => rfl)
  | arc args => exact allocPush_evolves _ _ st (fun _ => rfl)
  | line args => exact allocPush_evolves _ _ st (fun _ => rfl)
  | linear_extrude shape args =>
    have ih := jsEvolves shape st
    simp only [evalExpr]
    split
    next m st₁ heq =>
      rw [heq] at ih
      exact ih
    next v st₁ heq =>
      rw [heq] at ih
      exact evolves_trans _ _ _ ih (allocPush_evolves _ _ st₁ (fun _ => rfl))
  | rotate_extrude shape args =>
    have ih := jsEvolves shape st
    simp only [evalExpr]
    split
    next m st₁ heq =>
      rw [heq] at ih
      exact ih
    next v st₁ heq =>
      rw [heq] at ih
      exact evolves_trans _ _ _ ih (allocPush_evolves _ _ st₁ (fun _ => rfl))
  | offset shape args =>
    have ih := jsEvolves shape st
    simp only [evalExpr]
    split
    next m st₁ heq =>
      rw [heq] at ih
      exact ih
    next v st₁ heq =>
      rw [heq] at ih
      exact evolves_trans _ _ _ ih (allocPush_evolves _ _ st₁ (fun _ => rfl))
  | fillet shape args =>
    have ih := jsEvolves shape st
    simp only [evalExpr]
    split
    next m st₁ heq =>
      rw [heq] at ih
      exact ih
    next v st₁ heq =>
      rw [heq] at ih
      exact evolves_trans _ _ _ ih (allocPush_evolves _ _ st₁ (fun _ => rfl))
  | chamfer shape args =>
    have ih := jsEvolves shape st
    simp only [evalExpr]
    split
    next m st₁ heq =>
      rw [heq] at ih
      exact ih
    next v st₁ heq =>
      rw [heq] at ih
      exact evolves_trans _ _ _ ih (allocPush_evolves _ _ st₁ (fun _ => rfl))
  | translate o v =>
    have iho := jsEvolves o st
    simp only [evalExpr]
    split
    next m st₁ heq =>
      rw [heq] at iho
      exact iho
    next w st₁ heq =>
      rw [heq] at iho
      have ihv := jsEvolves v st₁
      split
      next mv st₂ heqv =>
        rw [heqv] at ihv
        exact evolves_trans _ _ _ iho ihv
      next wv st₂ heqv =>
        rw [heqv] at ihv
        exact evolves_trans _ _ _ iho (evolves_trans _ _ _ ihv
          (applyTransform_evolves translateObj w wv st₂
            (fun o' => translateObj_type o' wv)))
  | rotate o v =>
    have iho := jsEvolves o st
    simp only [evalExpr]
    split
    next m st₁ heq =>
      rw [heq] at iho
      exact iho
    next w st₁ heq =>
      rw [heq] at iho
      have ihv := jsEvolves v st₁
      split
      next mv st₂ heqv =>
        rw [heqv] at ihv
        exact evolves_trans _ _ _ iho ihv
      next wv st₂ heqv =>
        rw [heqv] at ihv
        exact evolves_trans _ _ _ iho (evolves_trans _ _ _ ihv
          (applyTransform_evolves rotateObj w wv st₂
            (fun o' => rotateObj_type o' wv)))
  | scale o v =>
    have iho := jsEvolves o st
    simp only [evalExpr]
    split
    next m st₁ heq =>
      rw [heq] at iho
      exact iho
    next w st₁ heq =>
      rw [heq] at iho
      have ihv := jsEvolves v st₁
      split
      next mv st₂ heqv =>
        rw [heqv] at ihv
        exact evolves_trans _ _ _ iho ihv
      next wv st₂ heqv =>
        rw [heqv] at ihv
        exact evolves_trans _ _ _ iho (evolves_trans _ _ _ ihv
          (applyTransform_evolves scaleObj w wv st₂
            (fun o' => scaleObj_type o' wv)))
  | union l =>
    have ih := jsEvolvesList l st
    simp only [evalExpr]
    split
    next m st₁ heq =>
      rw [heq] at ih
      exact ih
    next vs st₁ heq =>
      rw [heq] at ih
      exact evolves_trans _ _ _ ih (allocPush_evolves false _ st₁ (fun h => nomatch h))
  | difference l =>
    have ih := jsEvolvesList l st
    simp only [evalExpr]
    split
    next m st₁ heq =>
      rw [heq] at ih
      exact ih
    next vs st₁ heq =>
      rw [heq] at ih
      exact evolves_trans _ _ _ ih (allocPush_evolves false _ st₁ (fun h => nomatch h))
  | intersection l =>
    have ih := jsEvolvesList l st
    simp only [evalExpr]
    split
    next m st₁ heq =>
      rw [heq] at ih
      exact ih
    next vs st₁ heq =>
      rw [heq] at ih
      exact evolves_trans _ _ _ ih (allocPush_evolves false _ st₁ (fun h => nomatch h))
  | lit v => exact evolves_refl st
  | arrExpr l =>
    have ih := jsEvolvesList l st
    simp only [evalExpr]
    split
    next m st₁ heq =>
      rw [heq] at ih
      exact ih
    next vs st₁ heq =>
      rw [heq] at ih
      exact ih
  | mathRandom => exact ⟨le_refl _, fun _ _ => rfl, fun l hl hOK => ⟨l, hl, hOK⟩⟩
  | throwErr msg => exact evolves_refl st
  | undefinedRef name => exact evolves_refl st

/-- List version of `jsEvolves`. -/
theorem jsEvolvesList (l : List (NExpr α)) (st : EvalSt α) :
    evolves st (evalExprList .js l st).2 := by
  cases l with
  | nil => exact evolves_refl st
  | cons e rest =>
    have ihe := jsEvolves e st
    simp only [evalExprList]
    split
    next m st₁ heq =>
      rw [heq] at ihe
      exact ihe
    next v st₁ heq =>
      rw [heq] at ihe
      have ihr := jsEvolvesList rest st₁
      split
      next mr st₂ heqr =>
        rw [heqr] at ihr
        exact evolves_trans _ _ _ ihe ihr
      next vs st₂ heqr =>
        rw [heqr] at ihr
        exact evolves_trans _ _ _ ihe ihr

end

/-- Running a statement sequence `evolves` the state. -/
theorem jsRunStmts_evolves (l : List (NExpr α)) (st : EvalSt α) :
    evolves st (jsRunStmts .js l st) := by
  induction l generalizing st with
  | nil => exact evolves_refl st
  | cons e rest ih =>
    have ihe := jsEvolves e st
    simp only [jsRunStmts]
    split
    next v st₁ heq =>
      rw [heq] at ihe
      exact evolves_trans _ _ _ ihe (ih st₁)
    next m st₁ heq =>
      rw [heq] at ihe
      exact ihe

theorem objGet_shiftObj (b : ℕ) (o : CADObj α) (k : String) :
    objGet (shiftObj b o) k = shiftVal b (objGet o k) := by
  induction o with
  | nil => rfl
  | cons p rest ih =>
    obtain ⟨k₀, v₀⟩ := p
    by_cases hk : k₀ = k
    · simp [shiftObj, objGet_cons, hk]
    · simpa [shiftObj, objGet_cons, hk] using ih

theorem isBoolType_shiftVal (b : ℕ) (v : JVal α) :
    isBoolType (shiftVal b v) = isBoolType v := by
  cases v <;> rfl

theorem getD_append_shift (σ₀ Δ : Store α) (h : ℕ) (hh : h < Δ.length) :
    (σ₀ ++ shiftStore σ₀.length Δ).getD (σ₀.length + h) [] =
      shiftObj σ₀.length (Δ.getD h []) := by
  rw [List.getD_eq_getElem?_getD, List.getElem?_append_right (by omega)]
  have : σ₀.length + h - σ₀.length = h := by omega
  rw [this]
  unfold shiftStore
  rw [List.getElem?_map, List.getD_eq_getElem?_getD,
    List.getElem?_eq_getElem hh]
  simp

theorem accElemOK_not_bool (σ : Store α) (v : JVal α) (h : accElemOK σ v) :
    isBoolNode σ v = false := by
  obtain ⟨h', rfl, _, ht⟩ := h
  simpa [isBoolNode] using ht

theorem accElemOK_shift (σ₀ Δ : Store α) (v : JVal α)
    (h : accElemOK Δ v) :
    accElemOK (σ₀ ++ shiftStore σ₀.length Δ) (shiftVal σ₀.length v) := by
  obtain ⟨h', rfl, hh, ht⟩ := h
  refine ⟨σ₀.length + h', rfl, by simp [shiftStore]; omega, ?_⟩
  rw [getD_append_shift σ₀ Δ h' hh, objGet_shiftObj, isBoolType_shiftVal]
  exact ht

/-- Flatten is the identity on lists of non-boolean values (at any fuel). -/
theorem refFlatten_id (f : ℕ) (σ : Store α) (l : List (JVal α))
    (h : ∀ v ∈ l, isBoolNode σ v = false) : refFlatten f σ l = l := by
  induction l with
  | nil => rfl
  | cons v rest ih =>
    rw [refFlatten_cons, refFlattenOne_leaf σ f v (h v (by simp)),
      ih (fun w hw => h w (by simp [hw]))]
    rfl

/-- C2 counterexample: the claim says the result's `objects` field is the
flattened accumulator; the success path of `JavaScriptEngine.execute`
returns `{success, data, message}` — there is no `objects` field at all,
and `flattenObjects` is never applied.  Concretely, executing a script
consisting of one `cube(1)` call returns `objects` absent and `data`
holding the raw accumulator. -/
theorem c2_result_shape_counterexample :
    (jsExecute (.program [NExpr.cube [Lit.num (1 : ℚ)]])
      (freshJSEngineState (fun _ => 0))).1.objects = none ∧
    (jsExecute (.program [NExpr.cube [Lit.num (1 : ℚ)]])
      (freshJSEngineState (fun _ => 0))).1.data = some [.objRef 0] :=
  ⟨rfl, rfl⟩

/-- C2 as amended: for every script that parses, `execute` returns
`success = true` with the raw accumulator in the `data` field (there is no
`objects` field, and no flattening is applied); nevertheless the
accumulator only ever receives references to non-boolean leaf objects
(boolean nodes are constructed but never pushed), so the returned list
coincides with its own flattening at every fuel. -/
theorem c2_execute_returns_raw_accumulator (stmts : List (NExpr α))
    (eng : EngineState α) :
    (jsExecute (.program stmts) eng).1.success = true ∧
    (jsExecute (.program stmts) eng).1.objects = none ∧
    ∃ dataRefs, (jsExecute (.program stmts) eng).1.data = some dataRefs ∧
      (jsExecute (.program stmts) eng).2.generatedGeometry = some dataRefs ∧
      ∀ f, refFlatten f (jsExecute (.program stmts) eng).2.store dataRefs
        = dataRefs := by
  have hev := jsRunStmts_evolves stmts (⟨[], some [], eng.rng⟩ : EvalSt α)
  obtain ⟨l', hacc, hOK⟩ := hev.2.2 [] rfl (fun v hv => by cases hv)
  refine ⟨rfl, rfl, (l'.map (shiftVal eng.store.length)), ?_, ?_, ?_⟩
  · simp [jsExecute, hacc]
  · simp [jsExecute, hacc]
  · intro f
    simp only [jsExecute]
    refine refFlatten_id f _ _ ?_
    intro v hv
    rcases List.mem_map.mp hv with ⟨w, hw, rfl⟩
    exact accElemOK_not_bool _ _ (accElemOK_shift eng.store _ w (hOK w hw))

/-! ## C7: determinism of consecutive executions -/

mutual

/-- Relocation invariance of one dereference level: if the reference
resolvers agree modulo the shift `b`, the step agrees on shifted values. -/
theorem derefStep_shift (b : ℕ) (R1 R2 : ℕ → DVal α)
    (hR : ∀ h, R1 (b + h) = R2 h) :
    ∀ v : JVal α, derefStep R1 (shiftVal b v) = derefStep R2 v
  | .num x => rfl
  | .str s => rfl
  | .bool v => rfl
  | .undefined => rfl
  | .objRef h => hR h
  | .arr l => by
    simp only [shiftVal, derefStep]
    rw [derefStepList_shift b R1 R2 hR l]

/-- List version of `derefStep_shift`. -/
theorem derefStepList_shift (b : ℕ) (R1 R2 : ℕ → DVal α)
    (hR : ∀ h, R1 (b + h) = R2 h) :
    ∀ l : List (JVal α),
      derefStepList R1 (shiftValList b l) = derefStepList R2 l
  | [] => rfl
  | v :: rest => by
    simp only [shiftValList, derefStepList]
    rw [derefStep_shift b R1 R2 hR v, derefStepList_shift b R1 R2 hR rest]

end

theorem getElem?_append_shift (ρ Δ : Store α) (h : ℕ) :
    (ρ ++ shiftStore ρ.length Δ)[ρ.length + h]? = Δ[h]?.map (shiftObj ρ.length) := by
  rw [List.getElem?_append_right (by omega)]
  have : ρ.length + h - ρ.length = h := by omega
  rw [this]
  unfold shiftStore
  rw [List.getElem?_map]

/-- Relocation invariance of deep dereference: dereferencing relocated data
against the relocated heap segment appended to an arbitrary prior heap
gives the same deep value as dereferencing the original data against the
segment alone — at every depth. -/
theorem derefVal_shift (f : ℕ) (ρ Δ : Store α) (v : JVal α) :
    derefVal f (ρ ++ shiftStore ρ.length Δ) (shiftVal ρ.length v) =
      derefVal f Δ v := by
  induction f generalizing v with
  | zero => exact derefStep_shift _ _ _ (fun _ => rfl) v
  | succ f ih =>
    refine derefStep_shift _ _ _ (fun h => ?_) v
    rw [getElem?_append_shift]
    cases hΔ : Δ[h]? with
    | none => rfl
    | some o =>
      simp only [Option.map, shiftObj, derefFields, List.map_map]
      refine congrArg DVal.obj (List.map_congr_left ?_)
      intro p _
      simp only [Function.comp]
      rw [ih p.2]

mutual

/-- An expression syntactically contains a `Math.random()` call. -/
def usesRandom : NExpr α → Bool
  | .mathRandom => true
  | .arrExpr l => usesRandomList l
  | .cube _ => false
  | .sphere _ => false
  | .cylinder _ => false
  | .rectangle _ => false
  | .circle _ => false
  | .polygon _ => false
  | .arc _ => false
  | .line _ => false
  | .linear_extrude s _ => usesRandom s
  | .rotate_extrude s _ => usesRandom s
  | .offset s _ => usesRandom s
  | .fillet s _ => usesRandom s
  | .chamfer s _ => usesRandom s
  | .translate o v => usesRandom o || usesRandom v
  | .rotate o v => usesRandom o || usesRandom v
  | .scale o v => usesRandom o || usesRandom v
  | .union l => usesRandomList l
  | .difference l => usesRandomList l
  | .intersection l => usesRandomList l
  | .lit _ => false
  | .throwErr _ => false
  | .undefinedRef _ => false

/-- List version of `usesRandom`. -/
def usesRandomList : List (NExpr α) → Bool
  | [] => false
  | e :: rest => usesRandom e || usesRandomList rest

end

theorem allocPush_rng (p : Bool) (o : CADObj α) (st : EvalSt α) :
    (allocPush p o st).2.rng = st.rng := by
  cases p
  · rfl
  · cases hacc : st.acc <;> simp [allocPush, hacc]

theorem applyTransform_rng (tf : CADObj α → JVal α → CADObj α)
    (v a : JVal α) (st : EvalSt α) :
    (applyTransform tf v a st).2.rng = st.rng := by
  unfold applyTransform
  split
  · rfl
  · cases v with
    | objRef h => cases hv : st.store[h]? <;> simp [hv]
    | arr l => rfl
    | num x => rfl
    | str s => rfl
    | bool b => rfl
    | undefined => rfl

mutual

/-- Evaluating a random-free expression leaves the host PRNG stream
untouched: only `Math.random()` advances it. -/
theorem evalRngStable (cfg : EngineKind) (e : NExpr α) (st : EvalSt α)
    (h : usesRandom e = false) : (evalExpr cfg e st).2.rng = st.rng := by
  cases e with
  | cube args => exact allocPush_rng _ _ st
  | sphere args => exact allocPush_rng _ _ st
  | cylinder args => exact allocPush_rng _ _ st
  | rectangle args => exact allocPush_rng _ _ st
  | circle args => exact allocPush_rng _ _ st
  | polygon args => exact allocPush_rng _ _ st
  | arc args => exact allocPush_rng _ _ st
  | line args => exact allocPush_rng _ _ st
  | linear_extrude shape args =>
    have ih := evalRngStable cfg shape st (by simpa [usesRandom] using h)
    simp only [evalExpr]
    split
    next m st₁ heq =>
      rw [heq] at ih
      exact ih
    next v st₁ heq =>
      rw [heq] at ih
      rw [allocPush_rng]
      exact ih
  | rotate_extrude shape args =>
    have ih := evalRngStable cfg shape st (by simpa [usesRandom] using h)
    simp only [evalExpr]
    split
    next m st₁ heq =>
      rw [heq] at ih
      exact ih
    next v st₁ heq =>
      rw [heq] at ih
      rw [allocPush_rng]
      exact ih
  | offset shape args =>
    have ih := evalRngStable cfg shape st (by simpa [usesRandom] using h)
    simp only [evalExpr]
    split
    next m st₁ heq =>
      rw [heq] at ih
      exact ih
    next v st₁ heq =>
      rw [heq] at ih
      rw [allocPush_rng]
      exact ih
  | fillet shape args =>
    have ih := evalRngStable cfg shape st (by simpa [usesRandom] using h)
    simp only [evalExpr]
    split
    next m st₁ heq =>
      rw [heq] at ih
      exact ih
    next v st₁ heq =>
      rw [heq] at ih
      rw [allocPush_rng]
      exact ih
  | chamfer shape args =>
    have ih := evalRngStable cfg shape st (by simpa [usesRandom] using h)
    simp only [evalExpr]
    split
    next m st₁ heq =>
      rw [heq] at ih
      exact ih
    next v st₁ heq =>
      rw [heq] at ih
      rw [allocPush_rng]
      exact ih
  | translate o v =>
    have h2 : usesRandom o = false ∧ usesRandom v = false := by
      simpa [usesRandom, Bool.or_eq_false_iff] using h
    have iho := evalRngStable cfg o st h2.1
    simp only [evalExpr]
    split
    next m st₁ heq =>
      rw [heq] at iho
      exact iho
    next w st₁ heq =>
      rw [heq] at iho
      have ihv := evalRngStable cfg v st₁ h2.2
      split
      next mv st₂ heqv =>
        rw [heqv] at ihv
        rw [ihv, iho]
      next wv st₂ heqv =>
        rw [heqv] at ihv
        rw [applyTransform_rng, ihv, iho]
  | rotate o v =>
    have h2 : usesRandom o = false ∧ usesRandom v = false := by
      simpa [usesRandom, Bool.or_eq_false_iff] using h
    have iho := evalRngStable cfg o st h2.1
    simp only [evalExpr]
    split
    next m st₁ heq =>
      rw [heq] at iho
      exact iho
    next w st₁ heq =>
      rw [heq] at iho
      have ihv := evalRngStable cfg v st₁ h2.2
      split
      next mv st₂ heqv =>
        rw [heqv] at ihv
        rw [ihv, iho]
      next wv st₂ heqv =>
        rw [heqv] at ihv
        rw [applyTransform_rng, ihv, iho]
  | scale o v =>
    have h2 : usesRandom o = false ∧ usesRandom v = false := by
      simpa [usesRandom, Bool.or_eq_false_iff] using h
    have iho := evalRngStable cfg o st h2.1
    simp only [evalExpr]
    split
    next m st₁ heq =>
      rw [heq] at iho
      exact iho
    next w st₁ heq =>
      rw [heq] at iho
      have ihv := evalRngStable cfg v st₁ h2.2
      split
      next mv st₂ heqv =>
        rw [heqv] at ihv
        rw [ihv, iho]
      next wv st₂ heqv =>
        rw [heqv] at ihv
        rw [applyTransform_rng, ihv, iho]
  | union l =>
    have ih := evalRngStableList cfg l st (by simpa [usesRandom] using h)
    simp only [evalExpr]
    split
    next m st₁ heq =>
      rw [heq] at ih
      exact ih
    next vs st₁ heq =>
      rw [heq] at ih
      rw [allocPush_rng]
      exact ih
  | difference l =>
    have ih := evalRngStableList cfg l st (by simpa [usesRandom] using h)
    simp only [evalExpr]
    split
    next m st₁ heq =>
      rw [heq] at ih
      exact ih
    next vs st₁ heq =>
      rw [heq] at ih
      rw [allocPush_rng]
      exact ih
  | intersection l =>
    have ih := evalRngStableList cfg l st (by simpa [usesRandom] using h)
    simp only [evalExpr]
    split
    next m st₁ heq =>
      rw [heq] at ih
      exact ih
    next vs st₁ heq =>
      rw [heq] at ih
      rw [allocPush_rng]
      exact ih
  | arrExpr l =>
    have ih := evalRngStableList cfg l st (by simpa [usesRandom] using h)
    simp only [evalExpr]
    split
    next m st₁ heq =>
      rw [heq] at ih
      exact ih
    next vs st₁ heq =>
      rw [heq] at ih
      exact ih
  | mathRandom => simp [usesRandom] at h
  | lit v => rfl
  | throwErr msg => rfl
  | undefinedRef name => rfl

/-- List version of `evalRngStable`. -/
theorem evalRngStableList (cfg : EngineKind) (l : List (NExpr α)) (st : EvalSt α)
    (h : usesRandomList l = false) : (evalExprList cfg l st).2.rng = st.rng := by
  cases l with
  | nil => rfl
  | cons e rest =>
    have h2 : usesRandom e = false ∧ usesRandomList rest = false := by
      simpa [usesRandomList, Bool.or_eq_false_iff] using h
    have ihe := evalRngStable cfg e st h2.1
    simp only [evalExprList]
    split
    next m st₁ heq =>
      rw [heq] at ihe
      exact ihe
    next v st₁ heq =>
      rw [heq] at ihe
      have ihr := evalRngStableList cfg rest st₁ h2.2
      split
      next mr st₂ heqr =>
        rw [heqr] at ihr
        rw [ihr, ihe]
      next vs st₂ heqr =>
        rw [heqr] at ihr
        rw [ihr, ihe]

end

/-- Running a random-free statement sequence leaves the PRNG stream
untouched (also when the run stops at a fault). -/
theorem jsRunStmts_rng (cfg : EngineKind) (l : List (NExpr α)) :
    ∀ st : EvalSt α, usesRandomList l = false →
      (jsRunStmts cfg l st).rng = st.rng := by
  induction l with
  | nil => intro st h; rfl
  | cons e rest ih =>
    intro st h
    have h2 : usesRandom e = false ∧ usesRandomList rest = false := by
      simpa [usesRandomList, Bool.or_eq_false_iff] using h
    have ihe := evalRngStable cfg e st h2.1
    simp only [jsRunStmts]
    split
    next v st₁ heq =>
      rw [heq] at ihe
      rw [ih st₁ h2.2, ihe]
    next m st₁ heq =>
      rw [heq] at ihe
      exact ihe

/-- What the dereferenced `data` of one `execute` call is, stated over the
call's own fresh heap segment: the relocation offset of the call is
invisible to deep dereference. -/
theorem jsExecute_data_deref (stmts : List (NExpr α)) (eng : EngineState α)
    (f : ℕ) :
    (((jsExecute (.program stmts) eng).1.data.getD []).map
        (derefVal f ((jsExecute (.program stmts) eng).2.store))) =
    (((jsRunStmts EngineKind.js stmts ⟨[], some [], eng.rng⟩).acc.getD []).map
      (derefVal f (jsRunStmts EngineKind.js stmts
        ⟨[], some [], eng.rng⟩).store)) := by
  simp only [jsExecute, Option.getD_some, List.map_map]
  refine List.map_congr_left ?_
  intro v _
  simp only [Function.comp]
  rw [derefVal_shift]

/-- The script `translate(cube([1, 1, 1]), [Math.random(), 0, 0]);`: its
translation vector reads `Math.random()` through the sandbox's `Math`
binding. -/
def randomTranslateScript : List (NExpr α) :=
  [.translate (.cube [.arr [.num 1, .num 1, .num 1]])
    (.arrExpr [.mathRandom, .lit (.num 0), .lit (.num 0)])]

/-- An engine whose host PRNG will return 0, 1, 2, … on successive
`Math.random()` calls. -/
def countingRngEngine : EngineState ℚ :=
  ⟨[], some [], fun n => (n : ℚ)⟩

/-- Named field of a dereferenced object, for field-wise comparison of
execution outputs. -/
def dvalField (k : String) : DVal α → DVal α
  | .obj fields =>
    ((fields.find? (fun p => p.1 = k)).map (fun p => p.2)).getD .dangling
  | _ => .dangling

/-- C7 counterexample: the claim asserts determinism for every fixed source
text, but the sandbox exposes the host `Math` object (`Math: Math` in
`createSandbox`), hence `Math.random`.  Running
`translate(cube([1,1,1]), [Math.random(), 0, 0]);` twice in a row, the
first run's cube ends at position `[0, 0, 0]` and the second run's at
`[1, 0, 0]` (the PRNG stream has advanced), so the dereferenced object
sequences of the two consecutive runs differ: the claimed determinism
fails. -/
theorem c7_determinism_counterexample :
    objGet ((jsExecute (.program randomTranslateScript)
        countingRngEngine).2.store.getD 0 []) "position" =
      .arr [.num 0, .num 0, .num 0] ∧
    objGet ((jsExecute (.program randomTranslateScript)
        ((jsExecute (.program randomTranslateScript)
          countingRngEngine).2)).2.store.getD 1 []) "position" =
      .arr [.num 1, .num 0, .num 0] ∧
    ¬ (∀ f : ℕ,
      (((jsExecute (.program randomTranslateScript)
          countingRngEngine).1.data.getD []).map
        (derefVal f ((jsExecute (.program randomTranslateScript)
          countingRngEngine).2.store))) =
      (((jsExecute (.program randomTranslateScript)
          ((jsExecute (.program randomTranslateScript)
            countingRngEngine).2)).1.data.getD []).map
        (derefVal f ((jsExecute (.program randomTranslateScript)
          ((jsExecute (.program randomTranslateScript)
            countingRngEngine).2)).2.store)))) := by
  refine ⟨?_, ?_, fun hdet => ?_⟩
  · rw [show objGet ((jsExecute (JSource.program randomTranslateScript)
        countingRngEngine).2.store.getD 0 []) "position" =
        JVal.arr [JVal.num ((0 : ℚ) + ((0 : ℕ) : ℚ)), JVal.num (0 + 0),
          JVal.num (0 + 0)] from rfl]
    norm_num
  · rw [show objGet ((jsExecute (JSource.program randomTranslateScript)
        ((jsExecute (JSource.program randomTranslateScript)
          countingRngEngine).2)).2.store.getD 1 []) "position" =
        JVal.arr [JVal.num ((0 : ℚ) + ((1 : ℕ) : ℚ)), JVal.num (0 + 0),
          JVal.num (0 + 0)] from rfl]
    norm_num
  · have h2 := congrArg (fun l => dvalField "position" (l.headD .dangling)) (hdet 1)
    have h3 : (DVal.arr [DVal.num ((0 : ℚ) + ((0 : ℕ) : ℚ)), DVal.num (0 + 0),
          DVal.num (0 + 0)])
        = DVal.arr [DVal.num ((0 : ℚ) + ((1 : ℕ) : ℚ)), DVal.num (0 + 0),
          DVal.num (0 + 0)] := h2
    simp only [DVal.arr.injEq, List.cons.injEq, DVal.num.injEq] at h3
    norm_num at h3

/-- C7 as amended: determinism across consecutive runs holds for every
script that is free of the ambient nondeterminism the sandbox exposes via
the host `Math` object (no `Math.random()` call).  For such scripts the
accumulator is fully reset at the start of each call, the PRNG stream is
untouched by the first run, and evaluation is a pure function of the
source, so — although the returned heap references differ by the relocation
offset of each call — the dereferenced object sequences (compared at every
reference depth `f`) are identical; no geometry leaks from the first run
into the second.  For scripts that do call `Math.random()` the property
fails. -/
theorem c7_determinism_amended (stmts : List (NExpr α)) (eng₀ : EngineState α)
    (f : ℕ) (hr : usesRandomList stmts = false) :
    (((jsExecute (.program stmts) eng₀).1.data.getD []).map
        (derefVal f ((jsExecute (.program stmts) eng₀).2.store))) =
    (((jsExecute (.program stmts)
        ((jsExecute (.program stmts) eng₀).2)).1.data.getD []).map
      (derefVal f ((jsExecute (.program stmts)
        ((jsExecute (.program stmts) eng₀).2)).2.store))) := by
  have hrng : ((jsExecute (.program stmts) eng₀).2).rng = eng₀.rng :=
    jsRunStmts_rng EngineKind.js stmts ⟨[], some [], eng₀.rng⟩ hr
  rw [jsExecute_data_deref, jsExecute_data_deref, hrng]

/-- Witness for C7 (amended): a concrete random-free one-cube script run
twice in a row returns, at reference depth 1, the same dereferenced object
sequence both times. -/
theorem c7_determinism_amended_witness :
    (((jsExecute (.program [NExpr.cube [Lit.num (2 : ℚ)]])
        (freshJSEngineState (fun _ => 0))).1.data.getD []).map
      (derefVal 1 ((jsExecute (.program [NExpr.cube [Lit.num (2 : ℚ)]])
        (freshJSEngineState (fun _ => 0))).2.store))) =
    (((jsExecute (.program [NExpr.cube [Lit.num (2 : ℚ)]])
        ((jsExecute (.program [NExpr.cube [Lit.num (2 : ℚ)]])
          (freshJSEngineState (fun _ => 0))).2)).1.data.getD []).map
      (derefVal 1 ((jsExecute (.program [NExpr.cube [Lit.num (2 : ℚ)]])
        ((jsExecute (.program [NExpr.cube [Lit.num (2 : ℚ)]])
          (freshJSEngineState (fun _ => 0))).2)).2.store))) :=
  c7_determinism_amended [NExpr.cube [Lit.num (2 : ℚ)]]
    (freshJSEngineState (fun _ => 0)) 1 rfl

/-! ## C8: OpenSCAD transform-block transpilation -/

/-- C8: the claim (and the engine's own documented example
`rotate([0, 0, 45]) { cube([10, 10, 10]); }`) says a rotate block rewrites
into a call that applies the degree-to-radian-converted rotation to the
object produced by the body.  The code disagrees twice.  (1) With the
customary trailing semicolon inside the braces, the rewritten text
`rotate([...], cube([10, 10, 10]);)` is not valid JavaScript, so `execute`
fails outright.  (2) Without the semicolon the rewrite parses, but the
generated call passes the angle array in the `object` parameter position
(the sandbox signature is `(object, vector)`), so the rotation is applied
to the array, the cube's rotation stays `[0, 0, 0]`, and the run "succeeds"
returning the three angle numbers — not the cube — as its objects. -/
theorem c8_rotate_block_broken (x y z a b c : α) :
    ((scadExecute (.rotateBlock (0 : α) 0 45 (.cubeA 10 10 10 none) true)
        (freshOpenSCADEngineState (fun _ => 0))).1.success = false ∧
      (scadExecute (.rotateBlock (0 : α) 0 45 (.cubeA 10 10 10 none) true)
        (freshOpenSCADEngineState (fun _ => 0))).1.error.isSome = true) ∧
    ((scadExecute (.rotateBlock x y z (.cubeA a b c none) false)
        (freshOpenSCADEngineState (fun _ => 0))).1.success = true ∧
      (scadExecute (.rotateBlock x y z (.cubeA a b c none) false)
        (freshOpenSCADEngineState (fun _ => 0))).2.store.length = 1 ∧
      objGet ((scadExecute (.rotateBlock x y z (.cubeA a b c none) false)
        (freshOpenSCADEngineState (fun _ => 0))).2.store.getD 0 []) "rotation" =
        .arr [.num 0, .num 0, .num 0] ∧
      (scadExecute (.rotateBlock x y z (.cubeA a b c none) false)
        (freshOpenSCADEngineState (fun _ => 0))).1.objects =
        some [.num (x * PiConst.piVal / 180), .num (y * PiConst.piVal / 180),
              .num (z * PiConst.piVal / 180)]) :=
  ⟨⟨rfl, rfl⟩, rfl, rfl, rfl, rfl⟩

end CodeCad
